import Mathlib

/-!
Verification of the WebSocket protocol engine in `act_ws.py`.

The definitions below are a shallow embedding of the Python source:
bytes are `Nat` (0..255 on the wire), byte strings are `List Nat`,
Python exceptions are `Except String`, and each method of the
`WebSocket` / `WebSocketServer` classes becomes a pure function on an
explicit state record.  Field and function names follow the source.
-/

deriving instance DecidableEq for Except

namespace ActWs

/-! ### Protocol constants (module-level constants of `act_ws.py`) -/

def STREAM : Nat := 0x0
def TEXT : Nat := 0x1
def BINARY : Nat := 0x2
def CLOSE : Nat := 0x8
def PING : Nat := 0x9
def PONG : Nat := 0xA

def HEADERB1 : Nat := 1
def HEADERB2 : Nat := 3
def LENGTHSHORT : Nat := 4
def LENGTHLONG : Nat := 5
def MASK : Nat := 6
def PAYLOAD : Nat := 7

def MAXHEADER : Nat := 65536
def MAXPAYLOAD : Nat := 33554432

/-- The literal list in the source; note it holds the endpoints 3000, 3999,
4000, 4999 as individual values, not the full ranges. -/
def _VALID_STATUS_CODES : List Nat :=
  [1000, 1001, 1002, 1003, 1007, 1008, 1009, 1010, 1011, 3000, 3999, 4000, 4999]

def GUID_STR : String := "258EAFA5-E914-47DA-95CA-C5AB0DC85B11"

/-! ### Big-endian packing (`struct.pack` / `struct.unpack_from`) -/

/-- Big-endian digits, most significant first: `packBE k n` is the `k`-byte
big-endian encoding of `n` (truncated mod `256 ^ k`). -/
def packBE : Nat → Nat → List Nat
  | 0, _ => []
  | k + 1, n => packBE k (n / 256) ++ [n % 256]

/-- Big-endian reconstruction, as `struct.unpack_from` with a network byte
order format does. -/
def unpackBE (l : List Nat) : Nat := l.foldl (fun a b => a * 256 + b) 0

/-- Embedding of `struct.pack("!H", n)`: errors outside the 16-bit range. -/
def packH (n : Nat) : Except String (List Nat) :=
  if n < 65536 then .ok (packBE 2 n) else .error "struct error: H format requires 0 <= number <= 65535"

/-- Embedding of `struct.pack("!Q", n)`: errors outside the 64-bit range. -/
def packQ (n : Nat) : Except String (List Nat) :=
  if n < 18446744073709551616 then .ok (packBE 8 n) else .error "struct error: int too large for Q format"

/-! ### UTF-8 codec (embedding of Python's strict utf-8 codec) -/

/-- A UTF-8 continuation byte. -/
def cont_byte (b : Nat) : Bool := 128 ≤ b && b ≤ 191

/-- Sequence length selected by a UTF-8 lead byte; `0` marks an invalid lead
(`0x80`-`0xC1` covers stray continuation bytes and overlong 2-byte leads,
`0xF5`-`0xFF` is beyond the Unicode range). -/
def utf8_seq_len (b : Nat) : Nat :=
  if b ≤ 0x7F then 1
  else if b ≤ 0xC1 then 0
  else if b ≤ 0xDF then 2
  else if b ≤ 0xEF then 3
  else if b ≤ 0xF4 then 4
  else 0

/-- The value bits of a multi-byte lead. -/
def utf8_acc (lead : Nat) : Nat :=
  if lead ≤ 0xDF then lead - 0xC0 else if lead ≤ 0xEF then lead - 0xE0 else lead - 0xF0

/-- Valid range of the continuation byte at position `idx` of a sequence led
by `lead`; the first continuation byte is restricted to exclude overlong
encodings (`0xE0`/`0xF0`), surrogates (`0xED`) and values above `U+10FFFF`
(`0xF4`), exactly the prefixes CPython's strict decoder rejects eagerly. -/
def utf8_cont_ok (lead idx c : Nat) : Bool :=
  if idx = 1 then
    (if lead = 0xE0 then 0xA0 else if lead = 0xF0 then 0x90 else 0x80) ≤ c &&
      c ≤ (if lead = 0xED then 0x9F else if lead = 0xF4 then 0x8F else 0xBF)
  else cont_byte c

/-- Consume `k` continuation bytes of a sequence led by `lead`:
`some (cp, rest)` on success, `none` when the input ran out mid-sequence with
a so-far-valid prefix, an error on an out-of-range continuation byte. -/
def utf8_scan (lead : Nat) : Nat → Nat → Nat → List Nat → Except String (Option (Nat × List Nat))
  | _, acc, 0, l => .ok (some (acc, l))
  | _, _, _ + 1, [] => .ok Option.none
  | idx, acc, k + 1, c :: l =>
    if utf8_cont_ok lead idx c then utf8_scan lead (idx + 1) (acc * 64 + (c - 0x80)) k l
    else .error "invalid continuation byte"

/-- Main decoding loop (fuel-driven so that it reduces in the kernel; each
step consumes at least one byte, so `l.length` fuel always suffices). -/
def utf8_go : Nat → List Nat → Except String (List Nat × List Nat)
  | 0, l => .ok ([], l)
  | _, [] => .ok ([], [])
  | fuel + 1, b :: rest =>
    let n := utf8_seq_len b
    if n = 0 then .error "invalid start byte"
    else if n = 1 then
      match utf8_go fuel rest with
      | .ok (cps, pend) => .ok (b :: cps, pend)
      | .error e => .error e
    else
      match utf8_scan b 1 (utf8_acc b) (n - 1) rest with
      | .error e => .error e
      | .ok Option.none => .ok ([], b :: rest)
      | .ok (some (cp, rest')) =>
        match utf8_go fuel rest' with
        | .ok (cps, pend) => .ok (cp :: cps, pend)
        | .error e => .error e

/-- Strict UTF-8 decoding of a byte sequence into code points, returning the
decoded code points together with a trailing incomplete (but so far valid)
sequence.  Invalid sequences raise, exactly as CPython's strict incremental
decoder does. -/
def utf8_decode (l : List Nat) : Except String (List Nat × List Nat) := utf8_go l.length l

/-- Embedding of `bytes.decode("utf8", errors="strict")`: the whole input must
decode with no incomplete trailing sequence. -/
def utf8_decode_strict (bs : List Nat) : Except String (List Nat) :=
  match utf8_decode bs with
  | .ok (cps, []) => .ok cps
  | .ok (_, _ :: _) => .error "unexpected end of data"
  | .error e => .error e

/-- One call of the incremental strict decoder
(`codecs.getincrementaldecoder("utf-8")(errors="strict").decode(input, final)`):
`pending` is the decoder state carried between calls. -/
def utf8_incr (pending input : List Nat) (final : Bool) :
    Except String (List Nat × List Nat) :=
  match utf8_decode (pending ++ input) with
  | .ok (cps, pend) =>
    if final ∧ pend ≠ [] then .error "unexpected end of data" else .ok (cps, pend)
  | .error e => .error e

/-- Embedding of `str.encode("utf-8")` for one code point: errors on lone
surrogates and out-of-range values, as CPython does. -/
def utf8_encode_char (cp : Nat) : Except String (List Nat) :=
  if cp ≤ 0x7F then .ok [cp]
  else if cp ≤ 0x7FF then .ok [0xC0 + cp / 64, 0x80 + cp % 64]
  else if cp ≤ 0xFFFF then
    if 0xD800 ≤ cp ∧ cp ≤ 0xDFFF then .error "surrogates not allowed"
    else .ok [0xE0 + cp / 4096, 0x80 + cp / 64 % 64, 0x80 + cp % 64]
  else if cp ≤ 0x10FFFF then
    .ok [0xF0 + cp / 262144, 0x80 + cp / 4096 % 64, 0x80 + cp / 64 % 64, 0x80 + cp % 64]
  else .error "invalid codepoint"

/-- Embedding of `str.encode("utf-8")` on a whole string of code points. -/
def utf8_encode : List Nat → Except String (List Nat)
  | [] => .ok []
  | c :: rest =>
    match utf8_encode_char c, utf8_encode rest with
    | .ok h, .ok t => .ok (h ++ t)
    | .error e, _ => .error e
    | .ok _, .error e => .error e

/-! ### SHA-1 and base64 (embedding of `hashlib.sha1` / `base64.b64encode`) -/

/-- 32-bit left rotation. -/
def rotl32 (n k : Nat) : Nat := ((n <<< k) ||| (n >>> (32 - k))) &&& 0xFFFFFFFF

/-- Group a byte list into big-endian 32-bit words. -/
def bytes_to_words : List Nat → List Nat
  | b0 :: b1 :: b2 :: b3 :: rest =>
    (b0 * 16777216 + b1 * 65536 + b2 * 256 + b3) :: bytes_to_words rest
  | _ => []

/-- SHA-1 message schedule: extend 16 words to 80. -/
def sha1_schedule (w16 : List Nat) : Array Nat :=
  (List.range 64).foldl
    (fun w i =>
      w.push (rotl32 ((w.get! (i + 13)) ^^^ (w.get! (i + 8)) ^^^ (w.get! (i + 2)) ^^^ (w.get! i)) 1))
    w16.toArray

/-- SHA-1 round function. -/
def sha1_f (i b c d : Nat) : Nat :=
  if i < 20 then (b &&& c) ||| ((b ^^^ 0xFFFFFFFF) &&& d)
  else if i < 40 then b ^^^ c ^^^ d
  else if i < 60 then (b &&& c) ||| (b &&& d) ||| (c &&& d)
  else b ^^^ c ^^^ d

/-- SHA-1 round constants. -/
def sha1_k (i : Nat) : Nat :=
  if i < 20 then 0x5A827999
  else if i < 40 then 0x6ED9EBA1
  else if i < 60 then 0x8F1BBCDC
  else 0xCA62C1D6

/-- SHA-1 compression of one 64-byte chunk. -/
def sha1_compress (h : List Nat) (chunk : List Nat) : List Nat :=
  let w := sha1_schedule (bytes_to_words chunk)
  let s := (List.range 80).foldl
    (fun (s : Nat × Nat × Nat × Nat × Nat) i =>
      let t := (rotl32 s.1 5 + sha1_f i s.2.1 s.2.2.1 s.2.2.2.1 + s.2.2.2.2 +
        sha1_k i + w.get! i) &&& 0xFFFFFFFF
      (t, s.1, rotl32 s.2.1 30, s.2.2.1, s.2.2.2.1))
    (h.get! 0, h.get! 1, h.get! 2, h.get! 3, h.get! 4)
  [(h.get! 0 + s.1) &&& 0xFFFFFFFF, (h.get! 1 + s.2.1) &&& 0xFFFFFFFF,
   (h.get! 2 + s.2.2.1) &&& 0xFFFFFFFF, (h.get! 3 + s.2.2.2.1) &&& 0xFFFFFFFF,
   (h.get! 4 + s.2.2.2.2) &&& 0xFFFFFFFF]

/-- Split a list into 64-byte chunks (structural recursion on a fuel bound so
that the definition reduces in the kernel; one chunk consumes at least one
element, so `l.length` steps always suffice). -/
def chunks64_go : Nat → List Nat → List (List Nat)
  | 0, _ => []
  | _, [] => []
  | fuel + 1, b :: l => ((b :: l).take 64) :: chunks64_go fuel ((b :: l).drop 64)

/-- Split a list into 64-byte chunks. -/
def chunks64 (l : List Nat) : List (List Nat) := chunks64_go l.length l

/-- SHA-1 of a byte string, as a 20-byte digest. -/
def sha1 (msg : List Nat) : List Nat :=
  let padded := msg ++ [0x80] ++
    List.replicate ((64 + 56 - ((msg.length + 1) % 64)) % 64) 0 ++ packBE 8 (msg.length * 8)
  let h := (chunks64 padded).foldl sha1_compress
    [0x67452301, 0xEFCDAB89, 0x98BADCFE, 0x10325476, 0xC3D2E1F0]
  packBE 4 (h.get! 0) ++ packBE 4 (h.get! 1) ++ packBE 4 (h.get! 2) ++
    packBE 4 (h.get! 3) ++ packBE 4 (h.get! 4)

def base64_chars : List Char :=
  "ABCDEFGHIJKLMNOPQRSTUVWXYZabcdefghijklmnopqrstuvwxyz0123456789+/".toList

def b64c (n : Nat) : Char := base64_chars.getD n 'A'

/-- Embedding of `base64.b64encode`. -/
def base64_encode : List Nat → List Char
  | b0 :: b1 :: b2 :: rest =>
    b64c (b0 / 4) :: b64c ((b0 % 4) * 16 + b1 / 16) :: b64c ((b1 % 16) * 4 + b2 / 64) ::
      b64c (b2 % 64) :: base64_encode rest
  | [b0, b1] => [b64c (b0 / 4), b64c ((b0 % 4) * 16 + b1 / 16), b64c ((b1 % 16) * 4), '=']
  | [b0] => [b64c (b0 / 4), b64c ((b0 % 4) * 16), '=', '=']
  | [] => []

/-- Embedding of `str.encode("ascii")` for ASCII strings (the handshake key and
all literals in the source are ASCII). -/
def ascii_bytes (s : String) : List Nat := s.toList.map Char.toNat

/-- The accept-token computation from `_handle_data`
(lines 256-258 of the source): append the GUID, SHA-1, base64. -/
def accept_token (key : String) : String :=
  String.mk (base64_encode (sha1 (ascii_bytes key ++ ascii_bytes GUID_STR)))

/-- `HANDSHAKE_STR` with the accept token substituted
(`HANDSHAKE_STR % {"acceptstr": k_s}` in the source). -/
def handshake_str (acceptstr : String) : String :=
  "HTTP/1.1 101 Switching Protocols\r\nUpgrade: WebSocket\r\nConnection: Upgrade\r\nSec-WebSocket-Accept: " ++
    acceptstr ++ "\r\n\r\n"

/-- The accept-token computation on raw key bytes. -/
def accept_token_bytes (key : List Nat) : List Char :=
  base64_encode (sha1 (key ++ ascii_bytes GUID_STR))

/-! ### Data model of one `WebSocket` connection -/

/-- A Python value that is either a `str` (as a list of code points) or a
`bytes`/`bytearray` (as a list of bytes); `_check_unicode` distinguishes
the two. -/
inductive PyData where
  | str (cps : List Nat)
  | bytes (bs : List Nat)
deriving DecidableEq, Repr

/-- The `frag_buffer` attribute: `None`, a list of decoded text chunks, or a
binary accumulation buffer. -/
inductive FragBuffer where
  | none
  | text (parts : List (List Nat))
  | bin (bs : List Nat)
deriving DecidableEq, Repr

/-- A delivered message (the argument visible to `handle()`): decoded text or
raw binary. -/
inductive Message where
  | text (cps : List Nat)
  | bin (bs : List Nat)
deriving DecidableEq, Repr

/-- A dispatched frame at the `_handle_packet()` call sites inside
`_parse_message`: the values of `self.fin`, `self.opcode` and `self.data` at
that moment. -/
structure Frame where
  fin : Nat
  opcode : Nat
  data : List Nat
deriving DecidableEq, Repr

/-- The mutable state of one `WebSocket` instance (`__init__`).  The single
`frag_buffer` field covers the source's `frag_buffer`; `frag_decoder` is the
pending-bytes state of the incremental UTF-8 decoder. -/
structure WebSocket where
  handshaked : Bool
  headerbuffer : List Nat
  fin : Nat
  data : List Nat
  opcode : Nat
  hasmask : Bool
  maskarray : List Nat
  length : Nat
  lengtharray : List Nat
  index : Nat
  frag_start : Bool
  frag_type : Nat
  frag_buffer : FragBuffer
  frag_decoder : List Nat
  closed : Bool
  sendq : List (Nat × List Nat)
  state : Nat
  maxheader : Nat
  maxpayload : Nat
deriving DecidableEq, Repr

/-- The state of a freshly constructed `WebSocket` (`__init__`). -/
def websocket_init : WebSocket where
  handshaked := false
  headerbuffer := []
  fin := 0
  data := []
  opcode := 0
  hasmask := false
  maskarray := []
  length := 0
  lengtharray := []
  index := 0
  frag_start := false
  frag_type := BINARY
  frag_buffer := .none
  frag_decoder := []
  closed := false
  sendq := []
  state := HEADERB1
  maxheader := MAXHEADER
  maxpayload := MAXPAYLOAD

/-! ### Frame encoder (`_send_message`) -/

/-- The frame bytes built by `_send_message` for a `bytes` payload: first byte
`(0x80 if fin is False else 0) | opcode` (the parameter is False for a final
frame, as at every call site), then the 7/16/64-bit length field, then the
payload. -/
def encode_frame (fin : Bool) (opcode : Nat) (data : List Nat) : Except String (List Nat) :=
  let b1 := (if fin = false then 0x80 else 0) ||| opcode
  let length := data.length
  let head : Except String (List Nat) :=
    if length ≤ 125 then .ok [b1, length]
    else if length ≤ 65535 then
      match packH length with
      | .ok lb => .ok ([b1, 126] ++ lb)
      | .error e => .error e
    else
      match packQ length with
      | .ok lb => .ok ([b1, 127] ++ lb)
      | .error e => .error e
  match head with
  | .ok h => .ok (h ++ if 0 < length then data else [])
  | .error e => .error e

/-- `_send_message(fin, opcode, data)`: encode `str` data as UTF-8, build the
frame, append `(opcode, frame)` to the send queue. -/
def WebSocket._send_message (c : WebSocket) (fin : Bool) (opcode : Nat) (data : PyData) :
    Except String WebSocket :=
  let bs : Except String (List Nat) :=
    match data with
    | .str cps => utf8_encode cps
    | .bytes bs => .ok bs
  match bs with
  | .error e => .error e
  | .ok bs =>
    match encode_frame fin opcode bs with
    | .error e => .error e
    | .ok payload => .ok { c with sendq := c.sendq ++ [(opcode, payload)] }

/-- `close(status, reason)`: when not yet closed, build the close payload
(16-bit status plus UTF-8 encoded reason) and enqueue one Close frame; the
`finally` clause sets `closed` to `True` even when building or enqueueing
raised, in which case the exception (second component) still propagates. -/
def WebSocket.close (c : WebSocket) (status : Nat) (reason : PyData) :
    WebSocket × Option String :=
  if c.closed = false then
    let msg : Except String (List Nat) :=
      match packH status with
      | .error e => .error e
      | .ok sb =>
        match reason with
        | .str cps =>
          match utf8_encode cps with
          | .error e => .error e
          | .ok rb => .ok (sb ++ rb)
        | .bytes rb => .ok (sb ++ rb)
    match msg with
    | .error e => ({ c with closed := true }, some e)
    | .ok m =>
      match c._send_message false CLOSE (.bytes m) with
      | .error e => ({ c with closed := true }, some e)
      | .ok c' => ({ c' with closed := true }, none)
  else ({ c with closed := true }, none)

/-! ### Message-level handling (`_handle_packet`) -/

/-- The dispatch chain of `_handle_packet()` below its initial opcode
validation chain: close handling, fragment reassembly, ping/pong handling, or
message delivery.  Delivered messages (the `handle()` calls) are returned in
the list. -/
def WebSocket._handle_packet_main (c : WebSocket) (f : Frame) :
    Except String (WebSocket × List Message) :=
  if f.opcode = CLOSE then
    let length := f.data.length
    let sr : Nat × PyData :=
      if length = 0 then (1000, .str [])
      else if 2 ≤ length then
        let status := unpackBE (f.data.take 2)
        let reason := f.data.drop 2
        let status := if status ∈ _VALID_STATUS_CODES then status else 1002
        if reason ≠ [] then
          match utf8_decode_strict reason with
          | .ok cps => (status, .str cps)
          | .error _ => (1002, .bytes reason)
        else (status, .bytes reason)
      else (1002, .str [])
    match c.close sr.1 sr.2 with
    | (c', Option.none) => .ok (c', [])
    | (_, some e) => .error e
  else if f.fin = 0 then
    if f.opcode ≠ STREAM then
      if f.opcode = PING ∨ f.opcode = PONG then .error "control messages can not be fragmented"
      else
        let c := { c with frag_type := f.opcode, frag_start := true, frag_decoder := [] }
        if c.frag_type = TEXT then
          match utf8_incr [] f.data false with
          | .error e => .error e
          | .ok (cps, pend) =>
            .ok ({ c with
                   frag_decoder := pend
                   frag_buffer := .text (if cps ≠ [] then [cps] else []) }, [])
        else .ok ({ c with frag_buffer := .bin f.data }, [])
    else
      if c.frag_start = false then .error "fragmentation protocol error"
      else if c.frag_type = TEXT then
        match c.frag_buffer with
        | .text parts =>
          match utf8_incr c.frag_decoder f.data false with
          | .error e => .error e
          | .ok (cps, pend) =>
            .ok ({ c with
                   frag_decoder := pend
                   frag_buffer := .text (if cps ≠ [] then parts ++ [cps] else parts) }, [])
        | _ => .error "AttributeError: frag_buffer"
      else
        match c.frag_buffer with
        | .bin bs => .ok ({ c with frag_buffer := .bin (bs ++ f.data) }, [])
        | _ => .error "TypeError: frag_buffer"
  else
    if f.opcode = STREAM then
      if c.frag_start = false then .error "fragmentation protocol error"
      else if c.frag_type = TEXT then
        match c.frag_buffer with
        | .text parts =>
          match utf8_incr c.frag_decoder f.data true with
          | .error e => .error e
          | .ok (cps, _) =>
            .ok ({ c with
                   frag_decoder := []
                   frag_type := BINARY
                   frag_start := false
                   frag_buffer := .none }, [.text ((parts ++ [cps]).flatten)])
        | _ => .error "AttributeError: frag_buffer"
      else
        match c.frag_buffer with
        | .bin bs =>
          .ok ({ c with
                 frag_decoder := []
                 frag_type := BINARY
                 frag_start := false
                 frag_buffer := .none }, [.bin (bs ++ f.data)])
        | _ => .error "TypeError: frag_buffer"
    else if f.opcode = PING then
      match c._send_message false PONG (.bytes f.data) with
      | .error e => .error e
      | .ok c' => .ok (c', [])
    else if f.opcode = PONG then .ok (c, [])
    else
      if c.frag_start = true then .error "fragmentation protocol error"
      else if f.opcode = TEXT then
        match utf8_decode_strict f.data with
        | .error _ => .error "invalid utf-8 payload"
        | .ok cps => .ok (c, [.text cps])
      else .ok (c, [.bin f.data])

/-- `_handle_packet()`: the validation chain at the top of the method, then
the dispatch chain. -/
def WebSocket._handle_packet (c : WebSocket) (f : Frame) :
    Except String (WebSocket × List Message) :=
  if f.opcode = CLOSE ∨ f.opcode = STREAM ∨ f.opcode = TEXT ∨ f.opcode = BINARY then
    c._handle_packet_main f
  else if f.opcode = PONG ∨ f.opcode = PING then
    if 125 < f.data.length then .error "control frame length can not be > 125"
    else c._handle_packet_main f
  else .error "unknown opcode"

/-! ### Frame decoder state machine (`_parse_message`) -/

/-- Reset performed by the `finally` clauses around each `_handle_packet()`
call: back to `HEADERB1` with an empty data buffer. -/
def dispatch_reset (c : WebSocket) : WebSocket := { c with state := HEADERB1, data := [] }

/-- One step of the byte-driven decoder.  A dispatched frame (a
`_handle_packet()` call site) is returned as the second component; the
`finally` reset is already applied to the returned state. -/
def WebSocket._parse_message (c : WebSocket) (byte : Nat) :
    Except String (WebSocket × Option Frame) :=
  if c.state = HEADERB1 then
    let c := { c with
               fin := byte &&& 0x80
               opcode := byte &&& 0x0F
               state := HEADERB2
               index := 0
               length := 0
               lengtharray := []
               data := [] }
    if byte &&& 0x70 ≠ 0 then .error "RSV bit must be 0"
    else .ok (c, Option.none)
  else if c.state = HEADERB2 then
    let mask := byte &&& 0x80
    let length := byte &&& 0x7F
    if c.opcode = PING ∧ 125 < length then .error "ping packet is too large"
    else
      let c := { c with hasmask := mask = 128 }
      if length ≤ 125 then
        let c := { c with length := length }
        if c.hasmask = true then .ok ({ c with maskarray := [], state := MASK }, Option.none)
        else if c.length ≤ 0 then
          .ok (dispatch_reset c, some ⟨c.fin, c.opcode, c.data⟩)
        else .ok ({ c with data := [], state := PAYLOAD }, Option.none)
      else if length = 126 then
        .ok ({ c with lengtharray := [], state := LENGTHSHORT }, Option.none)
      else if length = 127 then
        .ok ({ c with lengtharray := [], state := LENGTHLONG }, Option.none)
      else .ok (c, Option.none)
  else if c.state = LENGTHSHORT then
    let c := { c with lengtharray := c.lengtharray ++ [byte] }
    if 2 < c.lengtharray.length then .error "short length exceeded allowable size"
    else if c.lengtharray.length = 2 then
      let c := { c with length := unpackBE c.lengtharray }
      if c.hasmask = true then .ok ({ c with maskarray := [], state := MASK }, Option.none)
      else if c.length ≤ 0 then
        .ok (dispatch_reset c, some ⟨c.fin, c.opcode, c.data⟩)
      else .ok ({ c with data := [], state := PAYLOAD }, Option.none)
    else .ok (c, Option.none)
  else if c.state = LENGTHLONG then
    let c := { c with lengtharray := c.lengtharray ++ [byte] }
    if 8 < c.lengtharray.length then .error "long length exceeded allowable size"
    else if c.lengtharray.length = 8 then
      let c := { c with length := unpackBE c.lengtharray }
      if c.hasmask = true then .ok ({ c with maskarray := [], state := MASK }, Option.none)
      else if c.length ≤ 0 then
        .ok (dispatch_reset c, some ⟨c.fin, c.opcode, c.data⟩)
      else .ok ({ c with data := [], state := PAYLOAD }, Option.none)
    else .ok (c, Option.none)
  else if c.state = MASK then
    let c := { c with maskarray := c.maskarray ++ [byte] }
    if 4 < c.maskarray.length then .error "mask exceeded allowable size"
    else if c.maskarray.length = 4 then
      if c.length ≤ 0 then
        .ok (dispatch_reset c, some ⟨c.fin, c.opcode, c.data⟩)
      else .ok ({ c with data := [], state := PAYLOAD }, Option.none)
    else .ok (c, Option.none)
  else if c.state = PAYLOAD then
    let c := { c with data :=
      c.data ++ [if c.hasmask = true then byte ^^^ c.maskarray.get! (c.index % 4) else byte] }
    if c.maxpayload ≤ c.data.length then .error "payload exceeded allowable size"
    else if c.index + 1 = c.length then
      .ok (dispatch_reset c, some ⟨c.fin, c.opcode, c.data⟩)
    else .ok ({ c with index := c.index + 1 }, Option.none)
  else .ok (c, Option.none)

/-- One byte through decoder plus message-level handling: exactly what one
`self._parse_message(byte)` call does, with the `_handle_packet()` calls run
at the dispatch points. -/
def process_byte (c : WebSocket) (b : Nat) : Except String (WebSocket × List Message) :=
  match c._parse_message b with
  | .error e => .error e
  | .ok (c', Option.none) => .ok (c', [])
  | .ok (c', some f) => c'._handle_packet f

/-- Fold the decoder alone over a byte list, collecting dispatched frames. -/
def parse_stream (c : WebSocket) : List Nat → Except String (WebSocket × List Frame)
  | [] => .ok (c, [])
  | b :: rest =>
    match c._parse_message b with
    | .error e => .error e
    | .ok (c', f?) =>
      match parse_stream c' rest with
      | .error e => .error e
      | .ok (c'', fs) => .ok (c'', f?.toList ++ fs)

/-- Fold full per-byte processing over a byte list (the first `for` loop of the
post-handshake branch of `_handle_data`). -/
def feed_bytes (c : WebSocket) : List Nat → Except String (WebSocket × List Message)
  | [] => .ok (c, [])
  | b :: rest =>
    match process_byte c b with
    | .error e => .error e
    | .ok (c', ms) =>
      match feed_bytes c' rest with
      | .error e => .error e
      | .ok (c'', ms') => .ok (c'', ms ++ ms')

/-- Python 3 semantics of `ord(d)` where `d` ranges over a `bytes` object:
iteration over `bytes` yields `int`, and `ord` of an `int` raises
`TypeError`, so this always fails. -/
def ord_of (_b : Nat) : Except String Nat :=
  .error "TypeError: ord() expected string of length 1, but int found"

/-- The second `for` loop of the post-handshake branch of `_handle_data`
(`for d in data: self._parse_message(ord(d))`). -/
def feed_ord (c : WebSocket) : List Nat → Except String (WebSocket × List Message)
  | [] => .ok (c, [])
  | b :: rest =>
    match ord_of b with
    | .error e => .error e
    | .ok b' =>
      match process_byte c b' with
      | .error e => .error e
      | .ok (c', ms) =>
        match feed_ord c' rest with
        | .error e => .error e
        | .ok (c'', ms') => .ok (c'', ms ++ ms')

/-! ### HTTP header handling and `_handle_data` -/

/-- Does `l` start with `pat`? -/
def starts_with : List Nat → List Nat → Bool
  | [], _ => true
  | _ :: _, [] => false
  | p :: ps, x :: xs => p = x && starts_with ps xs

/-- Does `l` contain `pat` as a contiguous subsequence (`pat in l`)? -/
def contains_seq (pat : List Nat) : List Nat → Bool
  | [] => starts_with pat []
  | x :: xs => starts_with pat (x :: xs) || contains_seq pat xs

/-- Split a byte list on CRLF boundaries. -/
def split_crlf : List Nat → List (List Nat)
  | [] => [[]]
  | 13 :: 10 :: rest => [] :: split_crlf rest
  | b :: rest =>
    match split_crlf rest with
    | [] => [[b]]
    | l :: ls => (b :: l) :: ls

/-- ASCII lower-casing of one byte. -/
def lower_byte (b : Nat) : Nat := if 65 ≤ b ∧ b ≤ 90 then b + 32 else b

/-- Strip ASCII spaces and tabs from both ends. -/
def strip_ws (l : List Nat) : List Nat :=
  ((l.dropWhile (fun b => b = 32 || b = 9)).reverse.dropWhile (fun b => b = 32 || b = 9)).reverse

/-- Extract the value of the `Sec-WebSocket-Key` header from the buffered
request (header names compare case-insensitively, values are stripped, as the
`http.server`/`email` header parser used by `HTTPRequest` does). -/
def find_ws_key (lines : List (List Nat)) : Option (List Nat) :=
  lines.findSome? fun line =>
    let name := line.takeWhile (fun b => b ≠ 58)
    let rest := line.dropWhile (fun b => b ≠ 58)
    match rest with
    | 58 :: v =>
      if name.map lower_byte = ascii_bytes "sec-websocket-key" then some (strip_ws v) else Option.none
    | _ => Option.none

/-- `_handle_data()` applied to one successful non-empty `recv` result.
Pre-handshake: accumulate header bytes, enforce `maxheader`, and perform the
RFC 6455 handshake once the header terminator appears.  Post-handshake: the
two `for` loops at lines 276-279 of the source, kept exactly as written. -/
def WebSocket._handle_data (c : WebSocket) (chunk : List Nat) :
    Except String (WebSocket × List Message) :=
  if c.handshaked = false then
    if chunk = [] then .error "remote socket closed"
    else
      let c := { c with headerbuffer := c.headerbuffer ++ chunk }
      if c.maxheader ≤ c.headerbuffer.length then .error "header exceeded allowable size"
      else if contains_seq [13, 10, 13, 10] c.headerbuffer then
        match find_ws_key (split_crlf c.headerbuffer) with
        | some key =>
          let hs := handshake_str (String.mk (accept_token_bytes key))
          .ok ({ c with sendq := c.sendq ++ [(BINARY, ascii_bytes hs)], handshaked := true }, [])
        | Option.none => .error "handshake failed"
      else .ok (c, [])
  else
    if chunk = [] then .error "remote socket closed"
    else
      match feed_bytes c chunk with
      | .error e => .error e
      | .ok (c1, msgs) =>
        match feed_ord c1 chunk with
        | .error e => .error e
        | .ok (c2, msgs2) => .ok (c2, msgs ++ msgs2)

/-! ### Send queue flushing (`_send_buffer` and the writable branch of
`WebSocketServer.handle_request`)

The non-blocking transport is modelled by an oracle: one entry per
`client.send` call, `some n` meaning the call returned `n` (accepting at most
`n` of the requested bytes), `none` meaning it raised a would-block condition
(`SSLWantReadError`/`SSLWantWriteError`/`EAGAIN`/`EWOULDBLOCK`). -/

/-- The `while tosend > 0` loop of `_send_buffer` (with `send_all=False`):
returns the final `already_sent` count, whether the buffer completed, and the
unconsumed oracle.  `sent == 0` raises; a would-block returns the suffix. -/
def _send_buffer_aux : List Nat → Nat → List (Option Nat) → Except String (Nat × Bool × List (Option Nat))
  | buff, already, oracle =>
    if buff.length ≤ already then .ok (already, true, oracle)
    else
      match oracle with
      | [] => .error "transport oracle exhausted"
      | Option.none :: rest => .ok (already, false, rest)
      | some n :: rest =>
        if n = 0 then .error "socket connection broken"
        else _send_buffer_aux buff (already + min n (buff.length - already)) rest

/-- `_send_buffer(buff)`: `none` when everything was sent, `some suffix` when
a would-block left a remainder.  Also returns the byte count actually written
and the rest of the oracle. -/
def _send_buffer (buff : List Nat) (oracle : List (Option Nat)) :
    Except String (Option (List Nat) × Nat × List (Option Nat)) :=
  match _send_buffer_aux buff 0 oracle with
  | .error e => .error e
  | .ok (a, true, o) => .ok (Option.none, a, o)
  | .ok (a, false, o) => .ok (some (buff.drop a), a, o)

/-- The `while client.sendq` loop in the writable branch of
`handle_request`: pop the head frame, send; a partial send reinstates the
unsent suffix as the new head and stops; a fully sent Close frame raises,
which the surrounding `except` turns into eviction (queue result `none`).
Returns the bytes written this tick. -/
def flush_sendq (q : List (Nat × List Nat)) (oracle : List (Option Nat)) :
    Except String (List Nat × Option (List (Nat × List Nat)) × List (Option Nat)) :=
  match q with
  | [] => .ok ([], some [], oracle)
  | (opcode, payload) :: rest =>
    match _send_buffer payload oracle with
    | .error e => .error e
    | .ok (some remaining, a, o) => .ok (payload.take a, some ((opcode, remaining) :: rest), o)
    | .ok (Option.none, a, o) =>
      if opcode = CLOSE then .ok (payload.take a, Option.none, o)
      else
        match flush_sendq rest o with
        | .error e => .error e
        | .ok (w, q', o') => .ok (payload.take a ++ w, q', o')

/-- The transport behaviour of one writable tick against a peer that accepts
up to `cap` bytes in the first `send` call of the tick and then blocks:
enough would-block entries follow for every further frame of the queue. -/
def tick_oracle (cap : Nat) (q : List (Nat × List Nat)) : List (Option Nat) :=
  some cap :: List.replicate q.length Option.none

/-- Iterate `n` writable ticks, each against a `tick_oracle cap` transport,
concatenating the bytes put on the wire. -/
def run_ticks (cap : Nat) : Nat → List (Nat × List Nat) →
    Except String (List Nat × List (Nat × List Nat))
  | 0, q => .ok ([], q)
  | n + 1, q =>
    match flush_sendq q (tick_oracle cap q) with
    | .error e => .error e
    | .ok (_, Option.none, _) => .error "connection evicted"
    | .ok (w, some q', _) =>
      match run_ticks cap n q' with
      | .error e => .error e
      | .ok (w', qf) => .ok (w ++ w', qf)

/-- All payload bytes of a send queue, in order. -/
def queue_bytes (q : List (Nat × List Nat)) : List Nat := (q.map Prod.snd).flatten

/-! ### Auxiliary definitions used by the statements below -/

/-- A connection that has completed its handshake and processed no frame
bytes yet. -/
def handshaked_ws : WebSocket := { websocket_init with handshaked := true }

/-- A pre-handshake connection whose header buffer is one byte short of the
64 KiB header limit. -/
def header_full_ws : WebSocket :=
  { websocket_init with headerbuffer := List.replicate 65535 97 }

/-- Whether a byte string is valid strict UTF-8 in its entirety. -/
def utf8_ok (bs : List Nat) : Bool :=
  match utf8_decode_strict bs with
  | .ok _ => true
  | .error _ => false

/-- The payload bytes accumulated by the `PAYLOAD` state from wire bytes
`l`, starting at payload index `i`: each byte is XOR-ed with
`mask[index mod 4]` when masked, and taken as is otherwise. -/
def decode_wire (hasmask : Bool) (mask : List Nat) : Nat → List Nat → List Nat
  | _, [] => []
  | i, b :: rest =>
    (if hasmask = true then b ^^^ mask.get! (i % 4) else b) :: decode_wire hasmask mask (i + 1) rest

/-! ### Arithmetic and packing lemmas -/

theorem packBE_length (k n : Nat) : (packBE k n).length = k := by
  induction k generalizing n with
  | zero => rfl
  | succ k ih => simp [packBE, ih]

theorem foldl_packBE (k : Nat) : ∀ (n a : Nat), n < 256 ^ k →
    (packBE k n).foldl (fun x b => x * 256 + b) a = a * 256 ^ k + n := by
  induction k with
  | zero =>
    intro n a h
    simp [packBE]
    omega
  | succ k ih =>
    intro n a h
    have hdiv : n / 256 < 256 ^ k := by
      rw [Nat.div_lt_iff_lt_mul (by norm_num)]
      calc n < 256 ^ (k + 1) := h
      _ = 256 ^ k * 256 := by rw [pow_succ]
    rw [packBE, List.foldl_append, ih (n / 256) a hdiv]
    simp [List.foldl]
    rw [pow_succ]
    have := Nat.div_add_mod n 256
    ring_nf
    omega

theorem unpackBE_packBE {k n : Nat} (h : n < 256 ^ k) : unpackBE (packBE k n) = n := by
  have := foldl_packBE k n 0 h
  simpa [unpackBE] using this

theorem small_and_127 {n : Nat} (h : n < 128) : n &&& 127 = n := by
  have h7 : n < 2 ^ 7 := by norm_num; omega
  have := Nat.and_pow_two_sub_one_of_lt_two_pow h7
  norm_num at this
  exact this

theorem small_and_128 {n : Nat} (h : n < 128) : n &&& 128 = 0 := by
  have h7 : n.testBit 7 = false := Nat.testBit_lt_two_pow (by norm_num; omega)
  have := Nat.and_two_pow n 7
  norm_num [h7] at this
  exact this

theorem add128_and_127 {n : Nat} (h : n < 128) : (128 + n) &&& 127 = n := by
  have := Nat.and_pow_two_sub_one_eq_mod (128 + n) 7
  norm_num at this
  rw [this, Nat.mod_eq_of_lt h]

theorem add128_and_128 {n : Nat} (h : n < 128) : (128 + n) &&& 128 = 128 := by
  have h7 : n.testBit 7 = false := Nat.testBit_lt_two_pow (by norm_num; omega)
  have ht : (128 + n).testBit 7 = true := by
    rw [show (128 : Nat) + n = 2 ^ 7 + n by norm_num, Nat.testBit_two_pow_add_eq, h7]
    rfl
  have h2 := Nat.and_two_pow (128 + n) 7
  rw [ht] at h2
  simp only [Bool.toNat_true, one_mul] at h2
  norm_num at h2
  exact h2

theorem b1_decomp (fin : Bool) (op : Nat) (hop : op < 16) :
    (((if fin = false then 128 else 0) ||| op) &&& 0x80 = if fin = false then 128 else 0) ∧
    (((if fin = false then 128 else 0) ||| op) &&& 0x0F = op) ∧
    (((if fin = false then 128 else 0) ||| op) &&& 0x70 = 0) := by
  cases fin <;> interval_cases op <;> exact by decide

theorem encode_frame_total (fin : Bool) (op : Nat) (data : List Nat)
    (h : data.length < 18446744073709551616) :
    ∃ fr, encode_frame fin op data = .ok fr := by
  by_cases h1 : data.length ≤ 125
  · refine ⟨((if fin = false then 128 else 0) ||| op) :: data.length ::
      (if 0 < data.length then data else []), ?_⟩
    simp [encode_frame, h1]
  · by_cases h2 : data.length ≤ 65535
    · refine ⟨((if fin = false then 128 else 0) ||| op) :: 126 ::
        (packBE 2 data.length ++ if 0 < data.length then data else []), ?_⟩
      simp [encode_frame, h1, h2, packH, show data.length < 65536 by omega]
    · refine ⟨((if fin = false then 128 else 0) ||| op) :: 127 ::
        (packBE 8 data.length ++ if 0 < data.length then data else []), ?_⟩
      simp [encode_frame, h1, h2, packQ, h]


/-- Unmasked wire bytes pass through the `PAYLOAD` accumulator unchanged. -/
theorem decode_wire_unmasked (m : List Nat) (i : Nat) (w : List Nat) :
    decode_wire false m i w = w := by
  induction w generalizing i with
  | nil => rfl
  | cons b rest ih => simp [decode_wire, ih]

/-- Frames with payload at most 125 bytes use the one-byte length field. -/
theorem encode_frame_small (fin : Bool) (op : Nat) (p : List Nat) (hl : p.length ≤ 125) :
    encode_frame fin op p =
      .ok (((if fin = false then 128 else 0) ||| op) :: p.length :: p) := by
  cases p with
  | nil => cases fin <;> rfl
  | cons q qs =>
    have h' : qs.length ≤ 124 := by simp at hl; omega
    simp [encode_frame, h']

/-- Frames with payload 126 to 65535 bytes use the marker 126 and a 16-bit
big-endian length. -/
theorem encode_frame_medium (fin : Bool) (op : Nat) (p : List Nat)
    (h1 : 126 ≤ p.length) (h2 : p.length ≤ 65535) :
    encode_frame fin op p =
      .ok (((if fin = false then 128 else 0) ||| op) :: 126 :: (packBE 2 p.length ++ p)) := by
  have hn1 : ¬ p.length ≤ 125 := by omega
  have hp : 0 < p.length := by omega
  simp [encode_frame, hn1, h2, packH, show p.length < 65536 by omega, hp]

/-- Frames with payload 65536 bytes or more (below 2^64) use the marker 127
and a 64-bit big-endian length. -/
theorem encode_frame_large (fin : Bool) (op : Nat) (p : List Nat)
    (h1 : 65536 ≤ p.length) (h2 : p.length < 18446744073709551616) :
    encode_frame fin op p =
      .ok (((if fin = false then 128 else 0) ||| op) :: 127 :: (packBE 8 p.length ++ p)) := by
  have hn1 : ¬ p.length ≤ 125 := by omega
  have hn2 : ¬ p.length ≤ 65535 := by omega
  have hp : 0 < p.length := by omega
  simp [encode_frame, hn1, hn2, packQ, h2, hp]

/-! ### Decoder step lemmas -/

theorem step_headerb1 (c : WebSocket) (b : Nat) (h : c.state = HEADERB1) (hrsv : b &&& 112 = 0) :
    c._parse_message b = .ok ({ c with
      fin := b &&& 128, opcode := b &&& 15, state := HEADERB2,
      index := 0, length := 0, lengtharray := [], data := [] }, Option.none) := by
  simp [WebSocket._parse_message, h, hrsv, HEADERB1, HEADERB2]

theorem step_headerb2_small_nomask (c : WebSocket) (b : Nat) (h : c.state = HEADERB2)
    (hm : b &&& 128 = 0) (hl : b &&& 127 ≤ 125) (hpos : 0 < b &&& 127) :
    c._parse_message b = .ok ({ c with
      hasmask := false, length := b &&& 127, data := [],
      state := PAYLOAD }, Option.none) := by
  simp [WebSocket._parse_message, h, hm, hl, HEADERB1, HEADERB2, PAYLOAD,
    show ¬ (b &&& 127 = 0) by omega, show ¬ (b &&& 127 ≤ 0) by omega]

theorem step_headerb2_zero_nomask (c : WebSocket) (b : Nat) (h : c.state = HEADERB2)
    (hm : b &&& 128 = 0) (hz : b &&& 127 = 0) :
    c._parse_message b = .ok (dispatch_reset { c with hasmask := false, length := b &&& 127 },
      some ⟨c.fin, c.opcode, c.data⟩) := by
  simp [WebSocket._parse_message, h, hm, hz, HEADERB1, HEADERB2]

theorem step_headerb2_126 (c : WebSocket) (b : Nat) (h : c.state = HEADERB2)
    (hm : b &&& 128 = 0) (hl : b &&& 127 = 126) (hping : c.opcode ≠ PING) :
    c._parse_message b = .ok ({ c with
      hasmask := false, lengtharray := [],
      state := LENGTHSHORT }, Option.none) := by
  simp [WebSocket._parse_message, h, hm, hl, hping, HEADERB1, HEADERB2, LENGTHSHORT]

theorem step_headerb2_127 (c : WebSocket) (b : Nat) (h : c.state = HEADERB2)
    (hm : b &&& 128 = 0) (hl : b &&& 127 = 127) (hping : c.opcode ≠ PING) :
    c._parse_message b = .ok ({ c with
      hasmask := false, lengtharray := [],
      state := LENGTHLONG }, Option.none) := by
  simp [WebSocket._parse_message, h, hm, hl, hping, HEADERB1, HEADERB2, LENGTHLONG]

theorem step_headerb2_masked_small (c : WebSocket) (b : Nat) (h : c.state = HEADERB2)
    (hm : b &&& 128 = 128) (hl : b &&& 127 ≤ 125) :
    c._parse_message b = .ok ({ c with
      hasmask := true, length := b &&& 127, maskarray := [],
      state := MASK }, Option.none) := by
  simp [WebSocket._parse_message, h, hm, hl, HEADERB1, HEADERB2, MASK]

theorem step_lengthshort_partial (c : WebSocket) (b : Nat) (h : c.state = LENGTHSHORT)
    (hl : c.lengtharray.length = 0) :
    c._parse_message b = .ok ({ c with lengtharray := c.lengtharray ++ [b] }, Option.none) := by
  simp [WebSocket._parse_message, h, hl, HEADERB1, HEADERB2, LENGTHSHORT]

theorem step_lengthshort_done_nomask (c : WebSocket) (b : Nat) (h : c.state = LENGTHSHORT)
    (hl : c.lengtharray.length = 1) (hm : c.hasmask = false)
    (hpos : 0 < unpackBE (c.lengtharray ++ [b])) :
    c._parse_message b = .ok ({ c with
      lengtharray := c.lengtharray ++ [b],
      length := unpackBE (c.lengtharray ++ [b]), data := [], state := PAYLOAD }, Option.none) := by
  simp [WebSocket._parse_message, h, hl, hm, HEADERB1, HEADERB2, LENGTHSHORT, PAYLOAD,
    show ¬ (unpackBE (c.lengtharray ++ [b]) = 0) by omega,
    show ¬ (unpackBE (c.lengtharray ++ [b]) ≤ 0) by omega]

theorem step_lengthlong_partial (c : WebSocket) (b : Nat) (h : c.state = LENGTHLONG)
    (hl : c.lengtharray.length < 7) :
    c._parse_message b = .ok ({ c with lengtharray := c.lengtharray ++ [b] }, Option.none) := by
  simp [WebSocket._parse_message, h, HEADERB1, HEADERB2, LENGTHSHORT, LENGTHLONG,
    show ¬ (8 < c.lengtharray.length + 1) by omega,
    show ¬ (c.lengtharray.length + 1 = 8) by omega]

theorem step_lengthlong_done_nomask (c : WebSocket) (b : Nat) (h : c.state = LENGTHLONG)
    (hl : c.lengtharray.length = 7) (hm : c.hasmask = false)
    (hpos : 0 < unpackBE (c.lengtharray ++ [b])) :
    c._parse_message b = .ok ({ c with
      lengtharray := c.lengtharray ++ [b],
      length := unpackBE (c.lengtharray ++ [b]), data := [], state := PAYLOAD }, Option.none) := by
  simp [WebSocket._parse_message, h, hl, hm, HEADERB1, HEADERB2, LENGTHSHORT, LENGTHLONG, PAYLOAD,
    show ¬ (unpackBE (c.lengtharray ++ [b]) = 0) by omega,
    show ¬ (unpackBE (c.lengtharray ++ [b]) ≤ 0) by omega]

theorem step_mask_partial (c : WebSocket) (b : Nat) (h : c.state = MASK)
    (hl : c.maskarray.length < 3) :
    c._parse_message b = .ok ({ c with maskarray := c.maskarray ++ [b] }, Option.none) := by
  simp [WebSocket._parse_message, h, HEADERB1, HEADERB2, LENGTHSHORT, LENGTHLONG, MASK,
    show ¬ (4 < c.maskarray.length + 1) by omega,
    show ¬ (c.maskarray.length + 1 = 4) by omega]

theorem step_mask_done (c : WebSocket) (b : Nat) (h : c.state = MASK)
    (hl : c.maskarray.length = 3) (hpos : 0 < c.length) :
    c._parse_message b = .ok ({ c with
      maskarray := c.maskarray ++ [b], data := [],
      state := PAYLOAD }, Option.none) := by
  simp [WebSocket._parse_message, h, hl, HEADERB1, HEADERB2, LENGTHSHORT, LENGTHLONG, MASK, PAYLOAD,
    show ¬ (c.length = 0) by omega, show ¬ (c.length ≤ 0) by omega]

theorem step_payload (c : WebSocket) (b : Nat) (h : c.state = PAYLOAD) :
    c._parse_message b =
      (if c.maxpayload ≤ c.data.length + 1 then .error "payload exceeded allowable size"
       else if c.index + 1 = c.length then
         .ok (dispatch_reset { c with data := c.data ++
            [if c.hasmask = true then b ^^^ c.maskarray.get! (c.index % 4) else b] },
           some ⟨c.fin, c.opcode, c.data ++
            [if c.hasmask = true then b ^^^ c.maskarray.get! (c.index % 4) else b]⟩)
       else .ok ({ c with
          data := c.data ++
            [if c.hasmask = true then b ^^^ c.maskarray.get! (c.index % 4) else b],
          index := c.index + 1 }, Option.none)) := by
  simp [WebSocket._parse_message, h, HEADERB1, HEADERB2, LENGTHSHORT, LENGTHLONG, MASK, PAYLOAD]

theorem header_limit_iff (c : WebSocket) (chunk : List Nat) (hh : c.handshaked = false)
    (hne : chunk ≠ []) :
    c._handle_data chunk = .error "header exceeded allowable size" ↔
      c.maxheader ≤ c.headerbuffer.length + chunk.length := by
  constructor
  · intro heq
    by_contra hsz
    simp [WebSocket._handle_data, hh, hne, List.length_append, hsz] at heq
    rcases hct : contains_seq [13, 10, 13, 10] (c.headerbuffer ++ chunk) with _ | _ <;>
      simp only [hct, Bool.false_eq_true, if_false, if_true] at heq
    · simp at heq
    · rcases hk : find_ws_key (split_crlf (c.headerbuffer ++ chunk)) with _ | key <;>
        simp only [hk] at heq <;> simp at heq
  · intro hsz
    simp [WebSocket._handle_data, hh, hne, List.length_append, hsz]

theorem payload_limit_iff (c : WebSocket) (b : Nat) (hst : c.state = PAYLOAD) :
    c._parse_message b = .error "payload exceeded allowable size" ↔
      c.maxpayload ≤ c.data.length + 1 := by
  rw [step_payload c b hst]
  by_cases hsz : c.maxpayload ≤ c.data.length + 1
  · simp [hsz]
  · simp only [hsz, if_false]
    split <;> simp [hsz]

theorem feed_stops_on_error (c : WebSocket) (b : Nat) (rest : List Nat) (e : String)
    (he : process_byte c b = .error e) : feed_bytes c (b :: rest) = .error e := by
  simp [feed_bytes, he]

theorem payload_feed : ∀ (rest : List Nat) (c : WebSocket), c.state = PAYLOAD →
    c.index = c.data.length → c.length = c.data.length + rest.length →
    rest ≠ [] → c.data.length + rest.length < c.maxpayload →
    parse_stream c rest =
      .ok ({ c with state := HEADERB1, data := [], index := c.length - 1 },
        [⟨c.fin, c.opcode, c.data ++ decode_wire c.hasmask c.maskarray c.index rest⟩]) ∧
    feed_bytes c rest =
      WebSocket._handle_packet
        { c with state := HEADERB1, data := [], index := c.length - 1 }
        ⟨c.fin, c.opcode, c.data ++ decode_wire c.hasmask c.maskarray c.index rest⟩ := by
  intro rest
  induction rest with
  | nil => intro c _ _ _ hne _; exact absurd rfl hne
  | cons b rest ih =>
    intro c hst hidx hlen hne hsz
    have hnsz : ¬ (c.maxpayload ≤ c.data.length + 1) := by
      simp at hsz ⊢
      omega
    cases rest with
    | nil =>
      have hdone : c.index + 1 = c.length := by
        simp at hlen
        omega
      have hps : c._parse_message b =
          .ok ({ c with state := HEADERB1, data := [], index := c.length - 1 },
            some ⟨c.fin, c.opcode, c.data ++ decode_wire c.hasmask c.maskarray c.index [b]⟩) := by
        rw [step_payload c b hst, if_neg hnsz, if_pos hdone]
        simp [dispatch_reset, decode_wire]
        omega
      constructor
      · rw [parse_stream, hps]
        rfl
      · rw [feed_bytes, process_byte, hps]
        cases hh : WebSocket._handle_packet
            { c with state := HEADERB1, data := [], index := c.length - 1 }
            ⟨c.fin, c.opcode, c.data ++ decode_wire c.hasmask c.maskarray c.index [b]⟩ with
        | error e => simp [hh]
        | ok p =>
          obtain ⟨c2, ms⟩ := p
          simp [hh, feed_bytes]
    | cons b2 rest2 =>
      have hnd : ¬ (c.index + 1 = c.length) := by
        simp at hlen
        omega
      have hps : c._parse_message b =
          .ok ({ c with
            data := c.data ++
              [if c.hasmask = true then b ^^^ c.maskarray.get! (c.index % 4) else b],
            index := c.index + 1 }, Option.none) := by
        rw [step_payload c b hst, if_neg hnsz, if_neg hnd]
      have h2 := ih { c with
          data := c.data ++
            [if c.hasmask = true then b ^^^ c.maskarray.get! (c.index % 4) else b],
          index := c.index + 1 }
        (by simp [hst]) (by simp [hidx]) (by simp; simp at hlen; omega) (by simp)
        (by simp; simp at hsz; omega)
      constructor
      · rw [parse_stream, hps]
        dsimp only
        rw [h2.1]
        simp [decode_wire]
      · rw [feed_bytes, process_byte, hps]
        dsimp only
        rw [h2.2]
        rw [show ((c.data ++ [if c.hasmask = true then b ^^^ c.maskarray.get! (c.index % 4) else b]) ++
            decode_wire c.hasmask c.maskarray (c.index + 1) (b2 :: rest2)) =
          c.data ++ decode_wire c.hasmask c.maskarray c.index (b :: b2 :: rest2) from by
            simp [decode_wire]]
        cases hh : WebSocket._handle_packet
            { c with state := HEADERB1, data := [], index := c.length - 1 }
            ⟨c.fin, c.opcode, c.data ++ decode_wire c.hasmask c.maskarray c.index (b :: b2 :: rest2)⟩ with
        | error e => simp [hh]
        | ok p =>
          obtain ⟨c2, ms⟩ := p
          simp [hh]

/-- Decoding steps compose over concatenation of the input stream. -/
theorem parse_stream_append {c c1 c2 : WebSocket} {xs ys : List Nat}
    {fs1 fs2 : List Frame}
    (h1 : parse_stream c xs = .ok (c1, fs1)) (h2 : parse_stream c1 ys = .ok (c2, fs2)) :
    parse_stream c (xs ++ ys) = .ok (c2, fs1 ++ fs2) := by
  induction xs generalizing c fs1 with
  | nil =>
    rw [parse_stream] at h1
    obtain ⟨rfl, rfl⟩ : c = c1 ∧ fs1 = [] := by
      have := Except.ok.inj h1
      exact ⟨congrArg Prod.fst this, (congrArg Prod.snd this).symm⟩
    simpa using h2
  | cons b xs ih =>
    rw [parse_stream] at h1
    cases hpm : c._parse_message b with
    | error e => rw [hpm] at h1; exact absurd h1 (by simp)
    | ok p =>
      obtain ⟨c', f?⟩ := p
      rw [hpm] at h1
      dsimp only at h1
      cases hps : parse_stream c' xs with
      | error e => rw [hps] at h1; exact absurd h1 (by simp)
      | ok q =>
        obtain ⟨cm, fsm⟩ := q
        rw [hps] at h1
        dsimp only at h1
        obtain ⟨rfl, rfl⟩ : cm = c1 ∧ fs1 = f?.toList ++ fsm := by
          have := Except.ok.inj h1
          exact ⟨congrArg Prod.fst this, (congrArg Prod.snd this).symm⟩
        have hxs := ih hps
        rw [List.cons_append, parse_stream, hpm]
        dsimp only
        rw [hxs]
        simp [List.append_assoc]

/-- Feeding the two extended-length bytes through the `LENGTHSHORT` state. -/
theorem lengthshort_bytes_feed : ∀ (bs : List Nat) (c : WebSocket), c.state = LENGTHSHORT →
    c.hasmask = false → c.lengtharray.length + bs.length = 2 → bs ≠ [] →
    0 < unpackBE (c.lengtharray ++ bs) →
    parse_stream c bs = .ok ({ c with
      lengtharray := c.lengtharray ++ bs
      length := unpackBE (c.lengtharray ++ bs)
      data := []
      state := PAYLOAD }, []) := by
  intro bs
  induction bs with
  | nil => intro c _ _ _ hne _; exact absurd rfl hne
  | cons b rest ih =>
    intro c hst hm harr hne hpos
    cases rest with
    | nil =>
      have h1 : c.lengtharray.length = 1 := by simp at harr; omega
      have hs := step_lengthshort_done_nomask c b hst h1 hm hpos
      rw [parse_stream, hs]
      dsimp only
      rw [parse_stream]
      rfl
    | cons b2 rest2 =>
      have h0 : c.lengtharray.length = 0 := by simp at harr; omega
      have hs := step_lengthshort_partial c b hst h0
      rw [parse_stream, hs]
      dsimp only
      have hrec := ih { c with lengtharray := c.lengtharray ++ [b] }
        (by simpa using hst) (by simpa using hm) (by simp at harr ⊢; omega)
        (by simp) (by simpa using hpos)
      rw [hrec]
      simp [List.append_assoc]

/-- Feeding the eight extended-length bytes through the `LENGTHLONG` state. -/
theorem lengthlong_bytes_feed : ∀ (bs : List Nat) (c : WebSocket), c.state = LENGTHLONG →
    c.hasmask = false → c.lengtharray.length + bs.length = 8 → bs ≠ [] →
    0 < unpackBE (c.lengtharray ++ bs) →
    parse_stream c bs = .ok ({ c with
      lengtharray := c.lengtharray ++ bs
      length := unpackBE (c.lengtharray ++ bs)
      data := []
      state := PAYLOAD }, []) := by
  intro bs
  induction bs with
  | nil => intro c _ _ _ hne _; exact absurd rfl hne
  | cons b rest ih =>
    intro c hst hm harr hne hpos
    cases rest with
    | nil =>
      have h1 : c.lengtharray.length = 7 := by simp at harr; omega
      have hs := step_lengthlong_done_nomask c b hst h1 hm hpos
      rw [parse_stream, hs]
      dsimp only
      rw [parse_stream]
      rfl
    | cons b2 rest2 =>
      have h0 : c.lengtharray.length < 7 := by simp at harr; omega
      have hs := step_lengthlong_partial c b hst h0
      rw [parse_stream, hs]
      dsimp only
      have hrec := ih { c with lengtharray := c.lengtharray ++ [b] }
        (by simpa using hst) (by simpa using hm) (by simp at harr ⊢; omega)
        (by simp) (by simpa using hpos)
      rw [hrec]
      simp [List.append_assoc]

/-! ### Close and limit helper lemmas -/

theorem close_spec (st : Nat) (rs : PyData) (d : WebSocket) :
    ((d.close st rs).1.closed = true) ∧
    (d.closed = true → (d.close st rs).1 = { d with closed := true } ∧
      (d.close st rs).2 = Option.none) ∧
    (d.closed = false →
      ((d.close st rs).2 = Option.none →
        ∃ fr, (d.close st rs).1.sendq = d.sendq ++ [(CLOSE, fr)]) ∧
      ((d.close st rs).2 ≠ Option.none → (d.close st rs).1.sendq = d.sendq)) := by
  cases hcl : d.closed with
  | true => simp [WebSocket.close, hcl]
  | false =>
    cases hph : packH st with
    | error e => simp [WebSocket.close, hcl, hph]
    | ok sb =>
      cases rs with
      | str cps =>
        cases hue : utf8_encode cps with
        | error e => simp [WebSocket.close, hcl, hph, hue]
        | ok rb =>
          cases henc : encode_frame false CLOSE (sb ++ rb) with
          | error e => simp [WebSocket.close, WebSocket._send_message, hcl, hph, hue, henc]
          | ok fr => simp [WebSocket.close, WebSocket._send_message, hcl, hph, hue, henc]
      | bytes rb =>
        cases henc : encode_frame false CLOSE (sb ++ rb) with
        | error e => simp [WebSocket.close, WebSocket._send_message, hcl, hph, henc]
        | ok fr => simp [WebSocket.close, WebSocket._send_message, hcl, hph, henc]

/-! ### Send-queue flushing lemmas -/

theorem send_buffer_aux_bounds : ∀ (oracle : List (Option Nat)) (buff : List Nat) (already a : Nat)
    (d : Bool) (o' : List (Option Nat)),
    _send_buffer_aux buff already oracle = .ok (a, d, o') →
    already ≤ a ∧ a ≤ max already buff.length ∧ (d = true → buff.length ≤ a) := by
  intro oracle
  induction oracle with
  | nil =>
    intro buff already a d o' h
    rw [_send_buffer_aux.eq_def] at h
    by_cases hle : buff.length ≤ already
    · simp [hle] at h
      obtain ⟨h1, h2, h3⟩ := h
      subst h1 h2
      exact ⟨Nat.le_refl _, Nat.le_max_left _ _, fun _ => hle⟩
    · simp [hle] at h
  | cons r rest ih =>
    intro buff already a d o' h
    rw [_send_buffer_aux.eq_def] at h
    by_cases hle : buff.length ≤ already
    · simp [hle] at h
      obtain ⟨h1, h2, h3⟩ := h
      subst h1 h2
      exact ⟨Nat.le_refl _, Nat.le_max_left _ _, fun _ => hle⟩
    · simp [hle] at h
      cases r with
      | none =>
        simp at h
        obtain ⟨h1, h2, h3⟩ := h
        subst h1 h2
        exact ⟨Nat.le_refl _, Nat.le_max_left _ _, fun hd => by simp at hd⟩
      | some n =>
        by_cases hn : n = 0
        · simp [hn] at h
        · simp [hn] at h
          have := ih buff (already + min n (buff.length - already)) a d o' h
          refine ⟨?_, ?_, ?_⟩
          · omega
          · rcases this with ⟨t1, t2, t3⟩
            simp at t2 ⊢
            omega
          · intro hd
            have h3 := this.2.2 hd
            omega

theorem send_buffer_cases (buff : List Nat) (oracle : List (Option Nat))
    (r : Option (List Nat)) (a : Nat) (o' : List (Option Nat))
    (h : _send_buffer buff oracle = .ok (r, a, o')) :
    a ≤ buff.length ∧ ((r = Option.none ∧ a = buff.length) ∨ r = some (buff.drop a)) := by
  rw [_send_buffer] at h
  cases haux : _send_buffer_aux buff 0 oracle with
  | error e => rw [haux] at h; simp at h
  | ok t =>
    obtain ⟨a2, d, o2⟩ := t
    have hb := send_buffer_aux_bounds oracle buff 0 a2 d o2 haux
    rw [haux] at h
    cases d with
    | true =>
      simp at h
      obtain ⟨h1, h2, h3⟩ := h
      subst h1 h2
      have := hb.2.2 rfl
      simp at hb
      refine ⟨by omega, Or.inl ⟨rfl, by omega⟩⟩
    | false =>
      simp at h
      obtain ⟨h1, h2, h3⟩ := h
      subst h2
      simp at hb
      exact ⟨by omega, Or.inr h1.symm⟩

theorem flush_conserves : ∀ (q : List (Nat × List Nat)) (oracle : List (Option Nat))
    (w : List Nat) (q' : List (Nat × List Nat)) (o' : List (Option Nat)),
    (∀ x ∈ q, x.1 ≠ CLOSE) →
    flush_sendq q oracle = .ok (w, some q', o') →
    w ++ queue_bytes q' = queue_bytes q := by
  intro q
  induction q with
  | nil =>
    intro oracle w q' o' _ h
    simp [flush_sendq] at h
    obtain ⟨h1, h2, _⟩ := h
    subst h1 h2
    simp [queue_bytes]
  | cons head rest ih =>
    intro oracle w q' o' hnc h
    obtain ⟨op, payload⟩ := head
    rw [flush_sendq] at h
    cases hsb : _send_buffer payload oracle with
    | error e => rw [hsb] at h; simp at h
    | ok t =>
      obtain ⟨r, a, o2⟩ := t
      have hc := send_buffer_cases payload oracle r a o2 hsb
      rw [hsb] at h
      cases r with
      | some rem =>
        simp at h
        obtain ⟨h1, h2, _⟩ := h
        subst h1 h2
        rcases hc.2 with ⟨hfalse, _⟩ | hdrop
        · simp at hfalse
        · simp at hdrop
          subst hdrop
          simp only [queue_bytes, List.map_cons, List.flatten_cons]
          rw [← List.append_assoc, List.take_append_drop]
      | none =>
        have hop : op ≠ CLOSE := hnc (op, payload) (by simp)
        simp [hop] at h
        cases hrec : flush_sendq rest o2 with
        | error e => rw [hrec] at h; simp at h
        | ok t2 =>
          obtain ⟨w2, q2, o3⟩ := t2
          rw [hrec] at h
          cases q2 with
          | none => simp at h
          | some q2v =>
            simp at h
            obtain ⟨h1, h2, _⟩ := h
            subst h1 h2
            have ha : a = payload.length := by
              rcases hc.2 with ⟨_, he⟩ | hx
              · exact he
              · simp at hx
            have hih := ih o2 w2 q2v o3 (fun x hx => hnc x (by simp [hx])) hrec
            subst ha
            rw [List.take_of_length_le (Nat.le_refl _), List.append_assoc, hih]
            simp [queue_bytes]

theorem flush_tick_cap (cap : Nat) (op : Nat) (p : List Nat) (rest : List (Nat × List Nat))
    (hcap : 0 < cap) (hne : p ≠ []) (hop : op ≠ CLOSE) (hrest : ∀ x ∈ rest, x.2 ≠ []) :
    ∃ o', flush_sendq ((op, p) :: rest) (tick_oracle cap ((op, p) :: rest)) =
      .ok (p.take cap, some (if cap < p.length then (op, p.drop cap) :: rest else rest), o') := by
  have hplen : 0 < p.length := List.length_pos.mpr hne
  have hsb1 : _send_buffer_aux p 0 (some cap :: List.replicate ((op, p) :: rest).length Option.none) =
      _send_buffer_aux p (min cap p.length) (List.replicate ((op, p) :: rest).length Option.none) := by
    rw [_send_buffer_aux.eq_def]
    simp [Nat.not_le.mpr hplen, Nat.pos_iff_ne_zero.mp hcap]
  by_cases hle : p.length ≤ cap
  · have hmin : min cap p.length = p.length := by omega
    have hsb : _send_buffer p (tick_oracle cap ((op, p) :: rest)) =
        .ok (Option.none, p.length, List.replicate ((op, p) :: rest).length Option.none) := by
      rw [_send_buffer, tick_oracle, hsb1, hmin, _send_buffer_aux.eq_def]
      simp
    rw [flush_sendq, hsb]
    simp only [hop, if_false]
    have hnotlt : ¬ (cap < p.length) := by omega
    rw [List.take_of_length_le hle, if_neg hnotlt]
    cases rest with
    | nil =>
      refine ⟨List.replicate 1 Option.none, ?_⟩
      simp [flush_sendq]
    | cons h2 rest2 =>
      obtain ⟨op2, p2⟩ := h2
      have hp2 : p2 ≠ [] := hrest (op2, p2) (by simp)
      have hp2len : 0 < p2.length := List.length_pos.mpr hp2
      rw [show (((op, p) :: (op2, p2) :: rest2).length) = rest2.length + 2 from by simp,
        List.replicate_succ]
      rw [flush_sendq]
      have hsb2 : _send_buffer p2 (Option.none :: List.replicate (rest2.length + 1) Option.none) =
          .ok (some (p2.drop 0), 0, List.replicate (rest2.length + 1) Option.none) := by
        rw [_send_buffer, _send_buffer_aux.eq_def]
        simp [Nat.not_le.mpr hp2len]
      rw [hsb2]
      refine ⟨List.replicate (rest2.length + 1) Option.none, ?_⟩
      simp
  · have hmin : min cap p.length = cap := by omega
    have hsb : _send_buffer p (tick_oracle cap ((op, p) :: rest)) =
        .ok (some (p.drop cap), cap, List.replicate rest.length Option.none) := by
      rw [_send_buffer, tick_oracle, hsb1, hmin]
      rw [show (((op, p) :: rest).length) = rest.length + 1 from by simp, List.replicate_succ]
      rw [_send_buffer_aux.eq_def]
      simp [hle]
    rw [flush_sendq, hsb]
    refine ⟨List.replicate rest.length Option.none, ?_⟩
    simp [Nat.lt_of_not_le hle]

theorem run_ticks_delivers (cap : Nat) (hcap : 0 < cap) : ∀ (n : Nat) (q : List (Nat × List Nat)),
    (∀ x ∈ q, x.1 ≠ CLOSE) → (∀ x ∈ q, x.2 ≠ []) → (queue_bytes q).length ≤ n →
    run_ticks cap n q = .ok (queue_bytes q, []) := by
  intro n
  induction n with
  | zero =>
    intro q hnc hne hlen
    cases q with
    | nil => simp [run_ticks, queue_bytes]
    | cons head rest =>
      obtain ⟨op, p⟩ := head
      exfalso
      have hp : p ≠ [] := hne (op, p) (by simp)
      have : 0 < p.length := List.length_pos.mpr hp
      simp only [queue_bytes, List.map_cons, List.flatten_cons, List.length_append,
        Nat.le_zero] at hlen
      omega
  | succ n ih =>
    intro q hnc hne hlen
    cases q with
    | nil =>
      rw [run_ticks]
      have h0 : flush_sendq [] (tick_oracle cap []) = .ok ([], some [], tick_oracle cap []) := by
        simp [flush_sendq]
      rw [h0]
      dsimp only
      rw [ih [] (by simp) (by simp) (by simp [queue_bytes])]
      simp [queue_bytes]
    | cons head rest =>
      obtain ⟨op, p⟩ := head
      have hp : p ≠ [] := hne (op, p) (by simp)
      have hplen : 0 < p.length := List.length_pos.mpr hp
      have hop : op ≠ CLOSE := hnc (op, p) (by simp)
      obtain ⟨o2, hflush⟩ := flush_tick_cap cap op p rest hcap hp hop
        (fun x hx => hne x (by simp [hx]))
      rw [run_ticks, hflush]
      dsimp only
      by_cases hlt : cap < p.length
      · rw [if_pos hlt]
        have hq2len : (queue_bytes ((op, p.drop cap) :: rest)).length ≤ n := by
          simp [queue_bytes] at hlen ⊢
          omega
        have hih := ih ((op, p.drop cap) :: rest)
          (by
            intro x hx
            rw [List.mem_cons] at hx
            rcases hx with hx | hx
            · subst hx; exact hop
            · exact hnc x (by simp [hx]))
          (by
            intro x hx
            rw [List.mem_cons] at hx
            rcases hx with hx | hx
            · subst hx
              intro hD
              have := congrArg List.length hD
              simp at this
              omega
            · exact hne x (by simp [hx]))
          hq2len
        rw [hih]
        simp only [queue_bytes, List.map_cons, List.flatten_cons]
        rw [← List.append_assoc, List.take_append_drop]
      · rw [if_neg hlt]
        have hq2len : (queue_bytes rest).length ≤ n := by
          simp [queue_bytes] at hlen ⊢
          omega
        have hih := ih rest (fun x hx => hnc x (by simp [hx])) (fun x hx => hne x (by simp [hx]))
          hq2len
        rw [hih]
        rw [List.take_of_length_le (by omega)]
        simp [queue_bytes]

/-! ### Claim C1 -/

/-- C1: the spec says each received byte is fed to `_parse_message` exactly
once per post-handshake read.  The code does feed every byte exactly once (the
first loop; here a complete unmasked ping, whose pong reply lands in the send
queue), but the leftover second loop then calls `ord` on an `int`, which in
Python 3 raises `TypeError` on the first byte, so `_handle_data` raises after
every post-handshake read and the connection is evicted.  The claim describes
the intended behaviour; the code's residual second pass is a slip. -/
theorem c1_single_pass_then_typeerror :
    ((feed_bytes handshaked_ws [0x89, 0]).map fun p => (p.1.sendq, p.2)) =
      .ok ([(PONG, [0x8A, 0])], []) ∧
    handshaked_ws._handle_data [0x89, 0] =
      .error "TypeError: ord() expected string of length 1, but int found" := by
  exact ⟨by decide, by decide⟩

/-! ### Claim C2 -/

/-- C2: the claim keeps any status in 3000-3999 or 4000-4999 unchanged, but
`_VALID_STATUS_CODES` lists only the endpoints of those ranges, so a Close
frame carrying status 3500 is normalized to 1002 in the reply, while 3999 is
kept.  (Close frame bytes `[0x88, 2, hi, lo]`; the reply frame payload starts
with the big-endian status.) -/
theorem c2_endpoints_not_ranges :
    ((feed_bytes handshaked_ws [0x88, 2, 13, 172]).map fun p => p.1.sendq) =
      .ok [(CLOSE, [0x88, 2, 3, 234])] ∧
    ((feed_bytes handshaked_ws [0x88, 2, 15, 159]).map fun p => p.1.sendq) =
      .ok [(CLOSE, [0x88, 2, 15, 159])] ∧
    unpackBE [13, 172] = 3500 ∧ unpackBE [3, 234] = 1002 ∧ unpackBE [15, 159] = 3999 ∧
    3500 ∉ _VALID_STATUS_CODES ∧ 3000 ≤ 3500 ∧ 3500 ≤ 3999 := by
  refine ⟨by decide, by decide, by decide, by decide, by decide, by decide, by decide, by decide⟩

/-! ### Claim C3 -/

/-- C3 counterexample: a Close frame with status 1000 and the invalid UTF-8
reason byte `0xFF` is answered with status 1002, but the outgoing Close frame
payload is `[3, 234, 255]` — the invalid reason byte IS included, against the
claim that the reply carries an empty reason `[3, 234]`. -/
theorem c3_invalid_reason_echoed :
    ((feed_bytes handshaked_ws [0x88, 3, 3, 232, 255]).map fun p => p.1.sendq) =
      .ok [(CLOSE, [0x88, 3, 3, 234, 255])] ∧
    utf8_ok [255] = false ∧
    ¬ (((feed_bytes handshaked_ws [0x88, 3, 3, 232, 255]).map fun p => p.1.sendq) =
      .ok [(CLOSE, [0x88, 2, 3, 234])]) := by
  refine ⟨by decide, by decide, by decide⟩

/-! ### Claim C9 -/

set_option maxRecDepth 100000 in
/-- C9: the accept token is `base64(SHA1(key ++ GUID))`; on the RFC 6455
sample key it is the expected sample token, and a complete upgrade request
containing that key makes `_handle_data` enqueue exactly the `101` response
whose `Sec-WebSocket-Accept` header carries that token, setting
`handshaked`. -/
theorem c9_accept_token :
    accept_token "dGhlIHNhbXBsZSBub25jZQ==" = "s3pPLMBiTxaQ9kYGzzhZRbK+xOo=" ∧
    ((websocket_init._handle_data
        (ascii_bytes "GET / HTTP/1.1\r\nSec-WebSocket-Key: dGhlIHNhbXBsZSBub25jZQ==\r\n\r\n")).map
        fun p => (p.1.handshaked, p.1.sendq)) =
      .ok (true, [(BINARY, ascii_bytes (handshake_str "s3pPLMBiTxaQ9kYGzzhZRbK+xOo="))]) := by
  exact ⟨by decide, by decide⟩


/-! ### Claim C3 (amended) -/

/-- C3 amended: for every Close frame with payload length at least 2 whose
reason bytes are not valid strict UTF-8, the reply carries status 1002 and the
raw invalid reason bytes are included verbatim after the status code. -/
theorem c3_amended_thm (c : WebSocket) (f : Frame) (hop : f.opcode = CLOSE)
    (hcl : c.closed = false) (hlen : 2 ≤ f.data.length)
    (hinv : utf8_ok (f.data.drop 2) = false)
    (hsz : f.data.length < 18446744073709551616) :
    ∃ c' fr, c._handle_packet f = .ok (c', []) ∧
      encode_frame false CLOSE ([3, 234] ++ f.data.drop 2) = .ok fr ∧
      c'.sendq = c.sendq ++ [(CLOSE, fr)] ∧ c'.closed = true := by
  have hne : f.data.drop 2 ≠ [] := by
    intro h
    rw [h] at hinv
    simp [utf8_ok, utf8_decode_strict, utf8_decode, utf8_go] at hinv
  cases hdec : utf8_decode_strict (f.data.drop 2) with
  | ok cps => exfalso; simp [utf8_ok, hdec] at hinv
  | error e =>
    obtain ⟨fr, henc⟩ := encode_frame_total false CLOSE ([3, 234] ++ f.data.drop 2)
      (by simp [List.length_append, List.length_drop]; omega)
    have henc2 : encode_frame false CLOSE (3 :: 234 :: f.data.drop 2) = .ok fr := by
      simpa using henc
    have hh : c._handle_packet f =
        .ok ({ c with sendq := c.sendq ++ [(CLOSE, fr)], closed := true }, []) := by
      simp [WebSocket._handle_packet, WebSocket._handle_packet_main, hop,
        show f.data.length ≠ 0 by omega, hlen, hne, hdec,
        WebSocket.close, hcl, show packH 1002 = Except.ok [3, 234] from by decide,
        WebSocket._send_message, henc2]
    exact ⟨_, fr, hh, henc, by simp, by simp⟩

/-- C3 amended witness at the concrete frame of the counterexample. -/
theorem c3_amended_witness :
    (handshaked_ws.closed = false ∧ 2 ≤ ([3, 232, 255] : List Nat).length ∧
      utf8_ok (([3, 232, 255] : List Nat).drop 2) = false ∧
      ([3, 232, 255] : List Nat).length < 18446744073709551616) ∧
    (∃ c' fr, handshaked_ws._handle_packet ⟨128, CLOSE, [3, 232, 255]⟩ = .ok (c', []) ∧
      encode_frame false CLOSE ([3, 234] ++ ([3, 232, 255] : List Nat).drop 2) = .ok fr ∧
      c'.sendq = handshaked_ws.sendq ++ [(CLOSE, fr)] ∧ c'.closed = true) := by
  exact ⟨⟨by decide, by decide, by decide, by decide⟩,
    c3_amended_thm handshaked_ws ⟨128, CLOSE, [3, 232, 255]⟩ rfl rfl (by decide) (by decide)
      (by decide)⟩

/-! ### Claim C5 -/

/-- C5: the send queue is FIFO: a tick that accepts only a prefix of the head
frame reinstates the unsent suffix as the new head and stops; any flush
preserves the queued byte stream (written bytes followed by the surviving
queue equal the original queue, so later frames never interleave); and for a
transport accepting `cap` bytes per tick, enough ticks deliver the whole
queue byte-identically and in order. -/
theorem c5_send_queue_fifo :
    (∀ (cap op : Nat) (p : List Nat) (rest : List (Nat × List Nat)),
      0 < cap → p ≠ [] → op ≠ CLOSE → (∀ x ∈ rest, x.2 ≠ []) → cap < p.length →
      ∃ o', flush_sendq ((op, p) :: rest) (tick_oracle cap ((op, p) :: rest)) =
        .ok (p.take cap, some ((op, p.drop cap) :: rest), o')) ∧
    (∀ (q : List (Nat × List Nat)) (oracle : List (Option Nat)) (w : List Nat)
      (q' : List (Nat × List Nat)) (o' : List (Option Nat)),
      (∀ x ∈ q, x.1 ≠ CLOSE) → flush_sendq q oracle = .ok (w, some q', o') →
      w ++ queue_bytes q' = queue_bytes q) ∧
    (∀ (cap n : Nat) (q : List (Nat × List Nat)), 0 < cap →
      (∀ x ∈ q, x.1 ≠ CLOSE) → (∀ x ∈ q, x.2 ≠ []) → (queue_bytes q).length ≤ n →
      run_ticks cap n q = .ok (queue_bytes q, [])) := by
  refine ⟨?_, flush_conserves, fun cap n q hcap => run_ticks_delivers cap hcap n q⟩
  intro cap op p rest hcap hp hop hrest hlt
  obtain ⟨o', hf⟩ := flush_tick_cap cap op p rest hcap hp hop hrest
  rw [if_pos hlt] at hf
  exact ⟨o', hf⟩

/-- C5 witness: a 10-byte frame against a transport accepting 4 bytes per
tick is split at byte 4, nothing of the later frame interleaves, and 12
ticks deliver both frames completely. -/
theorem c5_witness :
    ((0 < 4 ∧ ([0, 1, 2, 3, 4, 5, 6, 7, 8, 9] : List Nat) ≠ [] ∧ (2 : Nat) ≠ CLOSE ∧ 4 < 10) ∧
      ∃ o', flush_sendq [(2, [0, 1, 2, 3, 4, 5, 6, 7, 8, 9]), (1, [9, 9])]
          (tick_oracle 4 [(2, [0, 1, 2, 3, 4, 5, 6, 7, 8, 9]), (1, [9, 9])]) =
        .ok (List.take 4 [0, 1, 2, 3, 4, 5, 6, 7, 8, 9],
          some ((2, List.drop 4 [0, 1, 2, 3, 4, 5, 6, 7, 8, 9]) :: [(1, [9, 9])]), o')) ∧
    ([1, 2] ++ queue_bytes [(2, [3])] = queue_bytes [(2, [1, 2, 3])]) ∧
    run_ticks 4 12 [(2, [0, 1, 2, 3, 4, 5, 6, 7, 8, 9]), (1, [9, 9])] =
      .ok (queue_bytes [(2, [0, 1, 2, 3, 4, 5, 6, 7, 8, 9]), (1, [9, 9])], []) := by
  refine ⟨⟨by decide, ?_⟩, ?_, ?_⟩
  · exact c5_send_queue_fifo.1 4 2 [0, 1, 2, 3, 4, 5, 6, 7, 8, 9] [(1, [9, 9])]
      (by decide) (by decide) (by decide) (by decide) (by decide)
  · exact c5_send_queue_fifo.2.1 [(2, [1, 2, 3])] [some 2, Option.none] [1, 2] [(2, [3])] []
      (by decide) (by decide)
  · exact c5_send_queue_fifo.2.2 4 12 [(2, [0, 1, 2, 3, 4, 5, 6, 7, 8, 9]), (1, [9, 9])]
      (by decide) (by decide) (by decide) (by decide)

/-! ### Claim C7 -/

/-- C7 amended: the header and payload limits are enforced with `>=`: the
connection fails exactly when the accumulated size reaches the limit (not
only when it strictly exceeds it), sizes strictly below the limit are
processed normally, and processing of a chunk stops at the first error. -/
theorem c7_amended_thm :
    (∀ (c : WebSocket) (chunk : List Nat), c.handshaked = false → chunk ≠ [] →
      (c._handle_data chunk = .error "header exceeded allowable size" ↔
        c.maxheader ≤ c.headerbuffer.length + chunk.length)) ∧
    (∀ (c : WebSocket) (b : Nat), c.state = PAYLOAD →
      (c._parse_message b = .error "payload exceeded allowable size" ↔
        c.maxpayload ≤ c.data.length + 1)) ∧
    (∀ (c : WebSocket) (b : Nat) (rest : List Nat) (e : String),
      process_byte c b = .error e → feed_bytes c (b :: rest) = .error e) :=
  ⟨header_limit_iff, payload_limit_iff, feed_stops_on_error⟩

/-- C7 amended witness. -/
theorem c7_amended_witness :
    (websocket_init.handshaked = false ∧ ([97] : List Nat) ≠ []) ∧
    (websocket_init._handle_data [97] = .error "header exceeded allowable size" ↔
      websocket_init.maxheader ≤ websocket_init.headerbuffer.length + ([97] : List Nat).length) ∧
    (({ websocket_init with state := PAYLOAD } : WebSocket)._parse_message 0 =
        .error "payload exceeded allowable size" ↔
      ({ websocket_init with state := PAYLOAD } : WebSocket).maxpayload ≤
        ({ websocket_init with state := PAYLOAD } : WebSocket).data.length + 1) ∧
    feed_bytes websocket_init [112, 0] = .error "RSV bit must be 0" := by
  refine ⟨by decide, c7_amended_thm.1 websocket_init [97] (by decide) (by decide),
    c7_amended_thm.2.1 _ 0 (by decide),
    c7_amended_thm.2.2 websocket_init 112 [0] "RSV bit must be 0" (by decide)⟩

/-- C7 counterexample: a pre-handshake connection whose buffered header plus
the next chunk totals exactly 64 KiB is terminated, although the accumulated
size does not exceed `MAXHEADER` — the limit check uses `>=`, so reaching the
limit already fails, contradicting the claim that failure occurs only when
the size exceeds the limit. -/
theorem c7_at_limit_rejected :
    header_full_ws._handle_data [97] = .error "header exceeded allowable size" ∧
    header_full_ws.headerbuffer.length + ([97] : List Nat).length ≤ MAXHEADER := by
  have h1 : header_full_ws.maxheader = 65536 := rfl
  have h2 : header_full_ws.headerbuffer = List.replicate 65535 97 := rfl
  have harg : header_full_ws.maxheader ≤ header_full_ws.headerbuffer.length + ([97] : List Nat).length := by
    rw [h1, h2, List.length_replicate]
    norm_num
  constructor
  · exact (header_limit_iff header_full_ws [97] rfl (by simp)).mpr harg
  · rw [h2, List.length_replicate]
    norm_num [MAXHEADER]

/-! ### Claim C10 -/

/-- C10: `close` sets `closed` unconditionally (even when building the frame
raised); a first call on an open connection appends exactly one encoded Close
frame (or none when building raised, the error propagating); a call on an
already-closed connection leaves the queue unchanged, so a second close never
enqueues another Close frame. -/
theorem c10_close_idempotent (c : WebSocket) (status status2 : Nat) (reason reason2 : PyData) :
    ((c.close status reason).1.closed = true) ∧
    (c.closed = true →
      (c.close status reason).1.sendq = c.sendq ∧ (c.close status reason).2 = Option.none) ∧
    (c.closed = false →
      ((c.close status reason).2 = Option.none →
        ∃ fr, (c.close status reason).1.sendq = c.sendq ++ [(CLOSE, fr)]) ∧
      ((c.close status reason).2 ≠ Option.none → (c.close status reason).1.sendq = c.sendq)) ∧
    (((c.close status reason).1.close status2 reason2).1.sendq = (c.close status reason).1.sendq) := by
  obtain ⟨h1, h2, h3⟩ := close_spec status reason c
  refine ⟨h1, fun hc => ?_, h3, ?_⟩
  · obtain ⟨he, hn⟩ := h2 hc
    exact ⟨by rw [he], hn⟩
  · obtain ⟨he2, _⟩ := (close_spec status2 reason2 (c.close status reason).1).2.1 h1
    rw [he2]

/-- C10 witness. -/
theorem c10_witness :
    (websocket_init.closed = false) ∧
    ((websocket_init.close 1000 (.str [])).1.closed = true) ∧
    ((websocket_init.close 1000 (.str [])).2 = Option.none →
      ∃ fr, (websocket_init.close 1000 (.str [])).1.sendq = websocket_init.sendq ++ [(CLOSE, fr)]) ∧
    (((websocket_init.close 1000 (.str [])).1.close 1006 (.str [])).1.sendq =
      (websocket_init.close 1000 (.str [])).1.sendq) := by
  have h := c10_close_idempotent websocket_init 1000 1006 (.str []) (.str [])
  exact ⟨by decide, h.1, (h.2.2.1 (by decide)).1, h.2.2.2⟩

/-! ### Claim C6 -/

/-- C6: a ping whose 7-bit length field exceeds 125 makes the decoder fail
with `ping packet is too large` (both in general from the `HEADERB2` state
and concretely for the wire bytes `[0x89, 126]`), while a ping with payload
at most 125 bytes is accepted and a pong frame carrying the byte-identical
payload is appended to the send queue. -/
theorem c6_ping_limits :
    (∀ (c : WebSocket) (b : Nat), c.state = HEADERB2 → c.opcode = PING → 125 < b &&& 127 →
      c._parse_message b = .error "ping packet is too large") ∧
    parse_stream websocket_init [0x89, 126] = .error "ping packet is too large" ∧
    (∀ (c : WebSocket) (p : List Nat), c.state = HEADERB1 → p.length ≤ 125 →
      126 ≤ c.maxpayload →
      ∃ c', feed_bytes c (0x89 :: p.length :: p) = .ok (c', []) ∧
        c'.sendq = c.sendq ++ [(PONG, 0x8A :: p.length :: p)] ∧
        c'.state = HEADERB1) := by
  refine ⟨?_, by decide, ?_⟩
  · intro c b hst hop hbig
    simp [WebSocket._parse_message, hst, hop, hbig, HEADERB1, HEADERB2]
  · intro c p hst hlen hmax
    have hp1 := step_headerb1 c 0x89 hst (by decide)
    have h1 : process_byte c 0x89 = .ok ({ c with
        fin := 137 &&& 128, opcode := 137 &&& 15, state := HEADERB2,
        index := 0, length := 0, lengtharray := [], data := [] }, []) := by
      rw [process_byte, hp1]
    cases p with
    | nil =>
      refine ⟨{ c with
          fin := 137 &&& 128, opcode := 137 &&& 15, state := HEADERB1,
          index := 0, length := 0 &&& 127, lengtharray := [], data := [],
          hasmask := false,
          sendq := c.sendq ++ [(PONG, [0x8A, 0])] }, ?_, by simp, rfl⟩
      have h2 : process_byte { c with
          fin := 137 &&& 128, opcode := 137 &&& 15, state := HEADERB2,
          index := 0, length := 0, lengtharray := [], data := [] } 0 = .ok ({ c with
          fin := 137 &&& 128, opcode := 137 &&& 15, state := HEADERB1,
          index := 0, length := 0 &&& 127, lengtharray := [], data := [],
          hasmask := false,
          sendq := c.sendq ++ [(PONG, [0x8A, 0])] }, []) := by
        rw [process_byte]
        rw [step_headerb2_zero_nomask _ 0 rfl (by decide) (by decide)]
        simp [dispatch_reset, WebSocket._handle_packet, WebSocket._handle_packet_main,
          WebSocket._send_message, encode_frame, PING, PONG, CLOSE, STREAM, TEXT, BINARY,
          show (137 &&& 15 : Nat) = 9 from by decide,
          show (137 &&& 128 : Nat) = 128 from by decide]
      rw [show ([] : List Nat).length = 0 from rfl]
      rw [feed_bytes, h1]
      dsimp only
      rw [feed_bytes, h2]
      dsimp only
      rw [feed_bytes]
      rfl
    | cons q qs =>
      have hpos : 0 < (q :: qs).length := by simp
      have hlt : (q :: qs).length < 128 := by simp at hlen ⊢; omega
      have h2 : process_byte { c with
          fin := 137 &&& 128, opcode := 137 &&& 15, state := HEADERB2,
          index := 0, length := 0, lengtharray := [], data := [] } (q :: qs).length =
          .ok ({ c with
            fin := 137 &&& 128, opcode := 137 &&& 15, state := PAYLOAD,
            index := 0, length := (q :: qs).length &&& 127, lengtharray := [], data := [],
            hasmask := false }, []) := by
        rw [process_byte]
        rw [step_headerb2_small_nomask _ _ rfl (small_and_128 hlt)
          (by rw [small_and_127 hlt]; exact hlen) (by rw [small_and_127 hlt]; exact hpos)]
      have h3 := (payload_feed (q :: qs) { c with
          fin := 137 &&& 128, opcode := 137 &&& 15, state := PAYLOAD,
          index := 0, length := (q :: qs).length &&& 127, lengtharray := [], data := [],
          hasmask := false } rfl (by simp)
          (by simp; exact small_and_127 (by simp at hlt; omega)) (by simp)
          (by simp; simp at hlen; omega)).2
      have h4 : WebSocket._handle_packet { c with
          fin := 137 &&& 128, opcode := 137 &&& 15, state := HEADERB1,
          index := ((q :: qs).length &&& 127) - 1, length := (q :: qs).length &&& 127,
          lengtharray := [], data := [], hasmask := false }
          ⟨137 &&& 128, 137 &&& 15, q :: qs⟩ = .ok ({ c with
            fin := 137 &&& 128, opcode := 137 &&& 15, state := HEADERB1,
            index := ((q :: qs).length &&& 127) - 1, length := (q :: qs).length &&& 127,
            lengtharray := [], data := [], hasmask := false,
            sendq := c.sendq ++ [(PONG, 0x8A :: (q :: qs).length :: q :: qs)] }, []) := by
        rw [WebSocket._handle_packet]
        simp only [show (137 &&& 15 : Nat) = 9 by decide, PING, PONG, CLOSE, STREAM, TEXT, BINARY]
        rw [if_neg (by decide), if_pos (by decide), if_neg (by simp at hlen ⊢; omega)]
        rw [WebSocket._handle_packet_main]
        simp only [show (137 &&& 15 : Nat) = 9 by decide, show (137 &&& 128 : Nat) = 128 by decide,
          PING, PONG, CLOSE, STREAM, TEXT, BINARY]
        rw [if_neg (by decide), if_neg (by decide), if_neg (by decide)]
        simp only [if_true]
        rw [WebSocket._send_message]
        dsimp only
        rw [encode_frame_small false 10 (q :: qs) hlen]
        simp [PONG]
      have h3' : feed_bytes ({ c with
          fin := 137 &&& 128, opcode := 137 &&& 15, state := PAYLOAD,
          index := 0, length := (q :: qs).length &&& 127, lengtharray := [], data := [],
          hasmask := false } : WebSocket) (q :: qs) = .ok ({ c with
            fin := 137 &&& 128, opcode := 137 &&& 15, state := HEADERB1,
            index := ((q :: qs).length &&& 127) - 1, length := (q :: qs).length &&& 127,
            lengtharray := [], data := [], hasmask := false,
            sendq := c.sendq ++ [(PONG, 0x8A :: (q :: qs).length :: q :: qs)] }, []) := by
        rw [h3]
        dsimp only [List.nil_append]
        rw [decode_wire_unmasked]
        exact h4
      refine ⟨{ c with
            fin := 137 &&& 128, opcode := 137 &&& 15, state := HEADERB1,
            index := ((q :: qs).length &&& 127) - 1, length := (q :: qs).length &&& 127,
            lengtharray := [], data := [], hasmask := false,
            sendq := c.sendq ++ [(PONG, 0x8A :: (q :: qs).length :: q :: qs)] }, ?_, by simp, rfl⟩
      rw [feed_bytes, h1]
      dsimp only
      rw [feed_bytes, h2]
      dsimp only
      rw [h3']
      rfl

/-- C6 witness: a masked ping with length field 126 is rejected, and the
ping `[0x89, 1, 5]` gets the pong `[0x8A, 1, 5]` enqueued. -/
theorem c6_witness :
    ({ websocket_init with state := HEADERB2, opcode := PING } :
        WebSocket)._parse_message 254 = .error "ping packet is too large" ∧
    (∃ c', feed_bytes handshaked_ws [0x89, 1, 5] = .ok (c', []) ∧
      c'.sendq = handshaked_ws.sendq ++ [(PONG, [0x8A, 1, 5])] ∧
      c'.state = HEADERB1) :=
  ⟨c6_ping_limits.1 _ 254 rfl rfl (by decide),
   c6_ping_limits.2.2 handshaked_ws [5] rfl (by decide) (by decide)⟩

/-! ### Claim C8 -/

/-- C8: a full payload fed from the `PAYLOAD` state of a masked frame
dispatches with the wire bytes transformed by `decode_wire`, whose byte at
every position `j` is the wire byte XOR-ed with `mask[(start + j) mod 4]`;
concretely, the masked binary frame with mask key `[1, 2, 3, 4]` and wire
payload `[0, 0, 0, 0]` dispatches with decoded payload `[1, 2, 3, 4]`. -/
theorem c8_masked_xor :
    (∀ (c : WebSocket) (w : List Nat), c.state = PAYLOAD → c.hasmask = true →
      c.index = c.data.length → c.length = c.data.length + w.length → w ≠ [] →
      c.data.length + w.length < c.maxpayload →
      parse_stream c w =
        .ok ({ c with state := HEADERB1, data := [], index := c.length - 1 },
          [⟨c.fin, c.opcode, c.data ++ decode_wire true c.maskarray c.index w⟩])) ∧
    (∀ (m : List Nat) (i : Nat) (w : List Nat) (j : Nat),
      (decode_wire true m i w).getD j 0 =
        if j < w.length then w.getD j 0 ^^^ m.get! ((i + j) % 4) else 0) ∧
    parse_stream websocket_init [0x82, 0x84, 1, 2, 3, 4, 0, 0, 0, 0] =
      .ok ({ websocket_init with
             fin := 128
             opcode := BINARY
             hasmask := true
             maskarray := [1, 2, 3, 4]
             length := 4
             index := 3
             state := HEADERB1 }, [⟨128, BINARY, [1, 2, 3, 4]⟩]) := by
  refine ⟨?_, ?_, by decide⟩
  · intro c w hst hm hidx hlen hne hsz
    rw [← hm]
    exact (payload_feed w c hst hidx hlen hne hsz).1
  · intro m i w
    induction w generalizing i with
    | nil => intro j; simp [decode_wire]
    | cons b rest ih =>
      intro j
      cases j with
      | zero => simp [decode_wire]
      | succ j =>
        simp only [decode_wire, List.getD_cons_succ, List.length_cons, Nat.succ_lt_succ_iff]
        rw [ih (i + 1) j, show i + 1 + j = i + (j + 1) from by omega]

/-- C8 witness: a masked two-byte payload `[7, 7]` under mask `[1, 2, 3, 4]`
dispatches as `[6, 5]`, and the third decoded byte of the all-zero payload is
`3`. -/
theorem c8_witness :
    parse_stream ({ websocket_init with
        state := PAYLOAD
        hasmask := true
        maskarray := [1, 2, 3, 4]
        length := 2 } : WebSocket) [7, 7] =
      .ok ({ websocket_init with
        state := HEADERB1
        hasmask := true
        maskarray := [1, 2, 3, 4]
        length := 2
        index := 1 },
        [⟨0, 0, [6, 5]⟩]) ∧
    (decode_wire true [1, 2, 3, 4] 0 [0, 0, 0, 0]).getD 2 0 = 3 :=
  ⟨c8_masked_xor.1 { websocket_init with
      state := PAYLOAD
      hasmask := true
      maskarray := [1, 2, 3, 4]
      length := 2 } [7, 7] rfl rfl rfl rfl
      (by decide) (by decide),
   c8_masked_xor.2.1 [1, 2, 3, 4] 0 [0, 0, 0, 0] 2⟩

/-! ### Claim C4 -/

/-- C4 (amended): the frame encoder emits first byte
`(0x80 if final else 0) | opcode` (a frame is final exactly when the encoder
flag is `False`), and a length field that is the length itself when at most
125, the byte 126 followed by a 16-bit big-endian length when 126 to 65535,
and the byte 127 followed by a 64-bit big-endian length otherwise; and the
encoded (unmasked) frame fed byte-by-byte into the decoder state machine
dispatches one frame with exactly the original fin bit, opcode and payload,
provided the payload is shorter than the decoder payload limit and, for ping
frames, at most 125 bytes. -/
theorem c4_amended_thm (fin : Bool) (op : Nat) (data : List Nat)
    (hop : op < 16) (hping : op = PING → data.length ≤ 125)
    (hq : data.length < 18446744073709551616) :
    (data.length ≤ 125 →
      encode_frame fin op data =
        .ok (((if fin = false then 128 else 0) ||| op) :: data.length :: data)) ∧
    (126 ≤ data.length → data.length ≤ 65535 →
      encode_frame fin op data =
        .ok (((if fin = false then 128 else 0) ||| op) :: 126 :: (packBE 2 data.length ++ data))) ∧
    (65536 ≤ data.length →
      encode_frame fin op data =
        .ok (((if fin = false then 128 else 0) ||| op) :: 127 :: (packBE 8 data.length ++ data))) ∧
    (∀ (c : WebSocket) (wire : List Nat), c.state = HEADERB1 → data.length < c.maxpayload →
      encode_frame fin op data = .ok wire →
      ∃ c', parse_stream c wire =
        .ok (c', [⟨if fin = false then 128 else 0, op, data⟩]) ∧ c'.state = HEADERB1) := by
  refine ⟨fun h => encode_frame_small fin op data h,
    fun h1 h2 => encode_frame_medium fin op data h1 h2,
    fun h1 => encode_frame_large fin op data h1 hq, ?_⟩
  intro c wire hst hmaxsz henc
  have hd := b1_decomp fin op hop
  have hs1 := step_headerb1 c ((if fin = false then 128 else 0) ||| op) hst hd.2.2
  rw [hd.1, hd.2.1] at hs1
  by_cases hA : data.length ≤ 125
  · rw [encode_frame_small fin op data hA] at henc
    have hw := Except.ok.inj henc
    subst hw
    cases data with
    | nil =>
      have hs2 := step_headerb2_zero_nomask { c with
          fin := if fin = false then 128 else 0
          opcode := op
          state := HEADERB2
          index := 0
          length := 0
          lengtharray := []
          data := [] } 0 rfl (by decide) (by decide)
      have hfull : parse_stream c [(if fin = false then 128 else 0) ||| op, 0] =
          .ok ({ c with
            fin := if fin = false then 128 else 0
            opcode := op
            state := HEADERB1
            index := 0
            length := 0
            lengtharray := []
            data := []
            hasmask := false }, [⟨if fin = false then 128 else 0, op, []⟩]) := by
        rw [parse_stream, hs1]
        dsimp only
        rw [parse_stream, hs2]
        dsimp only
        rw [parse_stream]
        rfl
      exact ⟨_, hfull, rfl⟩
    | cons d ds =>
      have hlt : (d :: ds).length < 128 := by simp at hA ⊢; omega
      have hpos : 0 < (d :: ds).length := by simp
      have hs2 := step_headerb2_small_nomask { c with
          fin := if fin = false then 128 else 0
          opcode := op
          state := HEADERB2
          index := 0
          length := 0
          lengtharray := []
          data := [] } (d :: ds).length rfl (small_and_128 hlt)
          (by rw [small_and_127 hlt]; exact hA) (by rw [small_and_127 hlt]; exact hpos)
      have hhead : parse_stream c [(if fin = false then 128 else 0) ||| op, (d :: ds).length] =
          .ok ({ c with
            fin := if fin = false then 128 else 0
            opcode := op
            state := PAYLOAD
            index := 0
            length := (d :: ds).length &&& 127
            lengtharray := []
            data := []
            hasmask := false }, []) := by
        rw [parse_stream, hs1]
        dsimp only
        rw [parse_stream, hs2]
        dsimp only
        rw [parse_stream]
        rfl
      have hp := (payload_feed (d :: ds) { c with
          fin := if fin = false then 128 else 0
          opcode := op
          state := PAYLOAD
          index := 0
          length := (d :: ds).length &&& 127
          lengtharray := []
          data := []
          hasmask := false } rfl rfl
          (by simp; exact small_and_127 (by simp at hlt; omega))
          (by simp) (by simp; simp at hmaxsz; omega)).1
      dsimp only at hp
      rw [decode_wire_unmasked] at hp
      simp only [List.nil_append] at hp
      have hfull := parse_stream_append hhead hp
      exact ⟨_, hfull, rfl⟩
  · by_cases hB : data.length ≤ 65535
    · have h126 : 126 ≤ data.length := by omega
      have hnp : op ≠ PING := fun h9 => by have := hping h9; omega
      have hne : data ≠ [] := by cases data with
        | nil => simp at h126
        | cons d ds => simp
      rw [encode_frame_medium fin op data h126 hB] at henc
      have hw := Except.ok.inj henc
      subst hw
      have hs2 := step_headerb2_126 { c with
          fin := if fin = false then 128 else 0
          opcode := op
          state := HEADERB2
          index := 0
          length := 0
          lengtharray := []
          data := [] } 126 rfl (by decide) (by decide) hnp
      have hhead : parse_stream c [(if fin = false then 128 else 0) ||| op, 126] =
          .ok ({ c with
            fin := if fin = false then 128 else 0
            opcode := op
            state := LENGTHSHORT
            index := 0
            length := 0
            lengtharray := []
            data := []
            hasmask := false }, []) := by
        rw [parse_stream, hs1]
        dsimp only
        rw [parse_stream, hs2]
        dsimp only
        rw [parse_stream]
        rfl
      have h2562 : data.length < 256 ^ 2 := by norm_num; omega
      have hlb := lengthshort_bytes_feed (packBE 2 data.length) { c with
          fin := if fin = false then 128 else 0
          opcode := op
          state := LENGTHSHORT
          index := 0
          length := 0
          lengtharray := []
          data := []
          hasmask := false } rfl rfl (by simp [packBE_length])
          (List.length_pos.mp (by rw [packBE_length]; omega))
          (by simp [unpackBE_packBE h2562]; omega)
      simp only [List.nil_append, unpackBE_packBE h2562] at hlb
      have hp := (payload_feed data { c with
          fin := if fin = false then 128 else 0
          opcode := op
          state := PAYLOAD
          index := 0
          length := data.length
          lengtharray := packBE 2 data.length
          data := []
          hasmask := false } rfl rfl (by simp) hne (by simpa using hmaxsz)).1
      dsimp only at hp
      rw [decode_wire_unmasked] at hp
      simp only [List.nil_append] at hp
      have hlb2 : parse_stream ({ c with
          fin := if fin = false then 128 else 0
          opcode := op
          state := LENGTHSHORT
          index := 0
          length := 0
          lengtharray := []
          data := []
          hasmask := false } : WebSocket) (packBE 2 data.length) = .ok ({ c with
            fin := if fin = false then 128 else 0
            opcode := op
            state := PAYLOAD
            index := 0
            length := data.length
            lengtharray := packBE 2 data.length
            data := []
            hasmask := false }, []) := by rw [hlb]
      have hmid := parse_stream_append hhead hlb2
      have hfull := parse_stream_append hmid hp
      exact ⟨_, hfull, rfl⟩
    · have h65536 : 65536 ≤ data.length := by omega
      have hnp : op ≠ PING := fun h9 => by have := hping h9; omega
      have hne : data ≠ [] := by cases data with
        | nil => simp at hB
        | cons d ds => simp
      rw [encode_frame_large fin op data h65536 hq] at henc
      have hw := Except.ok.inj henc
      subst hw
      have hs2 := step_headerb2_127 { c with
          fin := if fin = false then 128 else 0
          opcode := op
          state := HEADERB2
          index := 0
          length := 0
          lengtharray := []
          data := [] } 127 rfl (by decide) (by decide) hnp
      have hhead : parse_stream c [(if fin = false then 128 else 0) ||| op, 127] =
          .ok ({ c with
            fin := if fin = false then 128 else 0
            opcode := op
            state := LENGTHLONG
            index := 0
            length := 0
            lengtharray := []
            data := []
            hasmask := false }, []) := by
        rw [parse_stream, hs1]
        dsimp only
        rw [parse_stream, hs2]
        dsimp only
        rw [parse_stream]
        rfl
      have h2568 : data.length < 256 ^ 8 := by norm_num; omega
      have hlb := lengthlong_bytes_feed (packBE 8 data.length) { c with
          fin := if fin = false then 128 else 0
          opcode := op
          state := LENGTHLONG
          index := 0
          length := 0
          lengtharray := []
          data := []
          hasmask := false } rfl rfl (by simp [packBE_length])
          (List.length_pos.mp (by rw [packBE_length]; omega))
          (by simp [unpackBE_packBE h2568]; omega)
      simp only [List.nil_append, unpackBE_packBE h2568] at hlb
      have hp := (payload_feed data { c with
          fin := if fin = false then 128 else 0
          opcode := op
          state := PAYLOAD
          index := 0
          length := data.length
          lengtharray := packBE 8 data.length
          data := []
          hasmask := false } rfl rfl (by simp) hne (by simpa using hmaxsz)).1
      dsimp only at hp
      rw [decode_wire_unmasked] at hp
      simp only [List.nil_append] at hp
      have hlb2 : parse_stream ({ c with
          fin := if fin = false then 128 else 0
          opcode := op
          state := LENGTHLONG
          index := 0
          length := 0
          lengtharray := []
          data := []
          hasmask := false } : WebSocket) (packBE 8 data.length) = .ok ({ c with
            fin := if fin = false then 128 else 0
            opcode := op
            state := PAYLOAD
            index := 0
            length := data.length
            lengtharray := packBE 8 data.length
            data := []
            hasmask := false }, []) := by rw [hlb]
      have hmid := parse_stream_append hhead hlb2
      have hfull := parse_stream_append hmid hp
      exact ⟨_, hfull, rfl⟩

/-- C4 witness: a final binary frame with payload `[65]` encodes to
`[0x82, 1, 65]` and decodes back to the same fin, opcode and payload. -/
theorem c4_witness :
    encode_frame false 2 [65] = .ok [130, 1, 65] ∧
    (∃ c', parse_stream handshaked_ws [130, 1, 65] = .ok (c', [⟨128, 2, [65]⟩]) ∧
      c'.state = HEADERB1) :=
  ⟨(c4_amended_thm false 2 [65] (by decide) (by decide) (by decide)).1 (by decide),
   (c4_amended_thm false 2 [65] (by decide) (by decide) (by decide)).2.2.2
     handshaked_ws [130, 1, 65] rfl (by decide) (by decide)⟩

set_option maxRecDepth 10000 in
/-- C4 counterexample: a ping frame with a 126-byte payload encodes
successfully, but feeding the encoded bytes back into the decoder fails with
`ping packet is too large` instead of dispatching the frame, so the
unconditional round-trip stated by the claim does not hold. -/
theorem c4_ping_roundtrip_fails :
    encode_frame false PING (List.replicate 126 0) =
      .ok ([137, 126, 0, 126] ++ List.replicate 126 0) ∧
    parse_stream websocket_init ([137, 126, 0, 126] ++ List.replicate 126 0) =
      .error "ping packet is too large" := by decide

end ActWs
